import Mathlib

/-!
# array2d.hpp : a shallow embedding

The header `src/array2d.hpp` defines, inside `namespace array2d`, three iterator
structs, the `emplacer` dispatcher, the heap-backed `array2d<T>` and the
inline-storage `static_array2d<T, Width, Height>`.

Modelling decisions
* A `T*` is a `Ptr`: the buffer (allocation) it points into and an element offset
  inside that buffer.  Buffer `0` is `nullptr`.  Pointer arithmetic with a
  `std::ptrdiff_t`, and with a `std::size_t` that counts elements of the buffer,
  is exact; adding the `std::size_t` product `n * _m_width` of a column iterator,
  in which a negative `n` has wrapped, is 64-bit address arithmetic
  (`Ptr.add_size`).
* Memory is a `Heap T`: the list of buffers ever allocated (a released buffer
  becomes `none`), each a list of cells; a cell is `none` while it holds no live
  object (raw or indeterminate storage) and `some v` while it holds `v`.  The
  heap also records which buffers are raw storage from `new char[]` rather than
  arrays from `new T[]`.
* `std::size_t` arithmetic is arithmetic modulo `2 ^ 64`; `std::ptrdiff_t`
  offsets added to a pointer are integers.
* Operations that the C++ standard leaves undefined (dereferencing outside a
  live buffer, `delete[]` of anything but null or the start of a live array of
  `T`) return `none`.
* An expression that is ill-formed, so that the member containing it cannot be
  instantiated, has no value: it is `none` for every argument.
-/

set_option linter.dupNamespace false

namespace array2d

/-! ## Machine arithmetic -/

/-- The number of values of `std::size_t` (a 64-bit unsigned type). -/
def SIZE_MOD : Nat := 2 ^ 64

/-- Multiplication `a * b` of two `std::size_t` values. -/
def size_mul (a b : Nat) : Nat := (a * b) % SIZE_MOD

/-- Addition `a + b` of two `std::size_t` values. -/
def size_add (a b : Nat) : Nat := (a + b) % SIZE_MOD

/-! ## Memory -/

/-- A `T*`: buffer identifier (`0` for `nullptr`) and element offset in it. -/
structure Ptr where
  blk : Nat
  off : Int
deriving DecidableEq, Repr

/-- The null pointer. -/
def nullptr : Ptr := ⟨0, 0⟩

/-- Pointer arithmetic `p + n`. -/
def Ptr.add (p : Ptr) (n : Int) : Ptr := ⟨p.blk, p.off + n⟩

/-- Pointer arithmetic `p - n`. -/
def Ptr.sub (p : Ptr) (n : Int) : Ptr := ⟨p.blk, p.off - n⟩

/-- A constructor or destructor call on the object at a position. -/
inductive Event where
  | construct (p : Ptr)
  | destroy (p : Ptr)
deriving DecidableEq, Repr

/-- The memory: every buffer allocated so far (`none` once released), the
buffers released by `delete[]` in order, the constructor and destructor calls
made so far, and the buffers that are raw storage obtained from `new char[]`
(every other buffer holds an array of `T`). -/
structure Heap (T : Type) where
  blocks : List (Option (List (Option T)))
  frees : List Nat
  trace : List Event
  raw : List Nat
deriving DecidableEq, Repr

/-- The heap before anything was allocated. -/
def Heap.empty {T : Type} : Heap T := ⟨[], [], [], []⟩

/-- The cells of the live buffer `b`, if `b` is live. -/
def Heap.block {T : Type} (h : Heap T) (b : Nat) : Option (List (Option T)) :=
  match b with
  | 0 => none
  | b + 1 => (h.blocks[b]?).join

/-- Total lookup of the cell a pointer designates: `none` when the pointer is
null, its buffer is not live or the offset is outside the buffer. -/
def Heap.cell {T : Type} (h : Heap T) (p : Ptr) : Option (Option T) :=
  match h.block p.blk, p.off with
  | some cells, Int.ofNat i => cells[i]?
  | _, _ => none

/-- Reading `*p`: the value of the live object at `p`. -/
def Heap.load {T : Type} (h : Heap T) (p : Ptr) : Option T := (h.cell p).join

/-- Overwrite the cell at `p`; undefined (`none`) outside a live buffer. -/
def Heap.setCell {T : Type} (h : Heap T) (p : Ptr) (c : Option T) : Option (Heap T) :=
  match h.block p.blk, p.off with
  | some cells, Int.ofNat i =>
    if i < cells.length then
      some { h with blocks := h.blocks.set (p.blk - 1) (some (cells.set i c)) }
    else none
  | _, _ => none

/-- Assignment `*p = v` through a reference to a live slot. -/
def Heap.store {T : Type} (h : Heap T) (p : Ptr) (v : T) : Option (Heap T) :=
  h.setCell p (some v)

/-- Placement new `new (p) T(args...)`, the constructed value being `v`: one
constructor call on the slot. -/
def Heap.construct {T : Type} (h : Heap T) (p : Ptr) (v : T) : Option (Heap T) :=
  (h.setCell p (some v)).map fun h1 => { h1 with trace := h1.trace ++ [Event.construct p] }

/-- Explicit destructor call `p->~T()` on the live object at `p`: one destructor
call, after which the slot holds no live object. -/
def Heap.destroy {T : Type} (h : Heap T) (p : Ptr) : Option (Heap T) :=
  match h.load p with
  | none => none
  | some _ =>
    (h.setCell p none).map fun h1 => { h1 with trace := h1.trace ++ [Event.destroy p] }

/-- Allocation of a fresh buffer with the given cells. -/
def Heap.alloc {T : Type} (h : Heap T) (cells : List (Option T)) : Ptr × Heap T :=
  (⟨h.blocks.length + 1, 0⟩, { h with blocks := h.blocks ++ [some cells] })

/-- The array new-expression `new T[n]`: a fresh buffer of `n` default-initialised
elements. `init` is what default-initialisation of a `T` leaves in a slot:
`some v` when a default constructor runs, `none` for a type such as `int`
whose default-initialisation performs no initialisation. -/
def Heap.new_array {T : Type} (h : Heap T) (init : Option T) (n : Nat) : Ptr × Heap T :=
  let r := h.alloc (List.replicate n init)
  (r.1, { r.2 with trace := r.2.trace ++
    (if init.isSome then (List.range n).map (fun i => Event.construct (r.1.add i)) else []) })

/-- The expression `reinterpret_cast<T*>(new char[bytes])`: a fresh buffer of raw
storage, with room for `bytes / sizeof(T)` objects and holding none. The buffer
is recorded as obtained from `new char[]`. -/
def Heap.new_raw {T : Type} (h : Heap T) (sizeofT bytes : Nat) : Ptr × Heap T :=
  let r := h.alloc (List.replicate (bytes / sizeofT) none)
  (r.1, { r.2 with raw := r.2.raw ++ [r.1.blk] })

/-- The expression `delete[] p` on a `T*`: nothing for a null pointer. Otherwise
`p` has to be the start of a live buffer holding an array of `T`: the elements
are destroyed last to first (when the element type has a destructor to run) and
the buffer is released. For every other pointer the expression is undefined
(`none`): a buffer already released, a position inside a buffer, and storage
obtained from `new char[]`, which is no array of `T` (for an element type with a
destructor the element count kept in front of an array is missing and the call
aborts). -/
def Heap.delete_array {T : Type} (trivial : Bool) (h : Heap T) (p : Ptr) :
    Option (Heap T) :=
  if p.blk = 0 then some h
  else
    match h.block p.blk with
    | none => none
    | some cells =>
      if p.off = 0 ∧ p.blk ∉ h.raw then
        some { h with
          blocks := h.blocks.set (p.blk - 1) none
          frees := h.frees ++ [p.blk]
          trace := h.trace ++
            (if trivial then []
             else ((List.range cells.length).reverse).map
               (fun i => Event.destroy (p.add i))) }
      else none

/-- The algorithm `std::uninitialized_copy_n(first, n, d_first)`: for each of
`n` elements in turn, copy-construct `*d_first` from the live object `*first`
and advance both. -/
def uninitialized_copy_n {T : Type} (h : Heap T) (first : Ptr) : Nat → Ptr → Option (Heap T)
  | 0, _ => some h
  | n + 1, d_first =>
    match h.load first with
    | none => none
    | some v =>
      match h.construct d_first v with
      | none => none
      | some h1 => uninitialized_copy_n h1 (first.add 1) n (d_first.add 1)

/-- Live-instance counter of an element type that counts its instances: each
constructor call adds one, each destructor call subtracts one. -/
def live_count : List Event → Int
  | [] => 0
  | Event.construct _ :: es => live_count es + 1
  | Event.destroy _ :: es => live_count es - 1

/-! ## Iterators -/

/-- The struct `array2d_iterator<T, Pointer, Reference>`: the linear (and row)
iterator. The mutable and the const instantiation have the same field. -/
structure array2d_iterator where
  _m_pos : Ptr
deriving DecidableEq, Repr

/-- The struct `array2d_column_iterator<T, Pointer, Reference>`: position and
the runtime stride. -/
structure array2d_column_iterator where
  _m_pos : Ptr
  _m_width : Nat
deriving DecidableEq, Repr

/-- The struct `static_array2d_column_iterator<T, Pointer, Reference, Width>`:
the stride is the template argument. -/
structure static_array2d_column_iterator (Width : Nat) where
  _m_pos : Ptr
deriving DecidableEq, Repr

/-- Dereference `*it`: `return *_m_pos;`. -/
def array2d_iterator.operator_star {T : Type} (it : array2d_iterator) (h : Heap T) :
    Option T := h.load it._m_pos

/-- Pre-increment `++it`: `++_m_pos; return *this;`. -/
def array2d_iterator.operator_inc (it : array2d_iterator) : array2d_iterator :=
  ⟨it._m_pos.add 1⟩

/-- Addition `it + n`: `return array2d_iterator(_m_pos + n);`. -/
def array2d_iterator.operator_plus (it : array2d_iterator) (n : Int) : array2d_iterator :=
  ⟨it._m_pos.add n⟩

/-- Comparison `a == b`: `return _m_pos == o._m_pos;`. -/
def array2d_iterator.operator_eq (a o : array2d_iterator) : Bool :=
  decide (a._m_pos = o._m_pos)

/-- Comparison `a != b`: `return _m_pos != o._m_pos;`. -/
def array2d_iterator.operator_ne (a o : array2d_iterator) : Bool :=
  decide (a._m_pos ≠ o._m_pos)

/-- Dereference `*it`: `return *_m_pos;`. -/
def array2d_column_iterator.operator_star {T : Type} (it : array2d_column_iterator)
    (h : Heap T) : Option T := h.load it._m_pos

/-- Pre-increment `++it`: `_m_pos += _m_width; return *this;`. -/
def array2d_column_iterator.operator_inc (it : array2d_column_iterator) :
    array2d_column_iterator :=
  ⟨it._m_pos.add it._m_width, it._m_width⟩

/-- Comparison `a == b`: `return _m_pos == o._m_pos;`. -/
def array2d_column_iterator.operator_eq (a o : array2d_column_iterator) : Bool :=
  decide (a._m_pos = o._m_pos)

/-- Comparison `a != b`: `return _m_pos != o._m_pos;`. -/
def array2d_column_iterator.operator_ne (a o : array2d_column_iterator) : Bool :=
  decide (a._m_pos ≠ o._m_pos)

/-- Dereference `*it`: `return *_m_pos;`. -/
def static_array2d_column_iterator.operator_star {T : Type} {Width : Nat}
    (it : static_array2d_column_iterator Width) (h : Heap T) : Option T :=
  h.load it._m_pos

/-- Pre-increment `++it`: `_m_pos += Width; return *this;`. -/
def static_array2d_column_iterator.operator_inc {Width : Nat}
    (it : static_array2d_column_iterator Width) : static_array2d_column_iterator Width :=
  ⟨it._m_pos.add Width⟩

/-- Comparison `a == b`: `return _m_pos == o._m_pos;`. -/
def static_array2d_column_iterator.operator_eq {Width : Nat}
    (a o : static_array2d_column_iterator Width) : Bool :=
  decide (a._m_pos = o._m_pos)

/-- Comparison `a != b`: `return _m_pos != o._m_pos;`. -/
def static_array2d_column_iterator.operator_ne {Width : Nat}
    (a o : static_array2d_column_iterator Width) : Bool :=
  decide (a._m_pos ≠ o._m_pos)

/-- The positions visited by the loop `for (it = first; it != last; ++it)` over
linear iterators, in order; `none` when `last` is not reached within `fuel`
tests of the loop condition. -/
def array2d_iterator.traverse : Nat → array2d_iterator → array2d_iterator → Option (List Ptr)
  | 0, _, _ => none
  | fuel + 1, it, last =>
    if it.operator_ne last then
      (array2d_iterator.traverse fuel it.operator_inc last).map (fun ps => it._m_pos :: ps)
    else some []

/-- The positions visited by the loop `for (it = first; it != last; ++it)` over
dynamic-stride column iterators. -/
def array2d_column_iterator.traverse :
    Nat → array2d_column_iterator → array2d_column_iterator → Option (List Ptr)
  | 0, _, _ => none
  | fuel + 1, it, last =>
    if it.operator_ne last then
      (array2d_column_iterator.traverse fuel it.operator_inc last).map
        (fun ps => it._m_pos :: ps)
    else some []

/-- The positions visited by the loop `for (it = first; it != last; ++it)` over
static-stride column iterators. -/
def static_array2d_column_iterator.traverse {Width : Nat} :
    Nat → static_array2d_column_iterator Width → static_array2d_column_iterator Width →
      Option (List Ptr)
  | 0, _, _ => none
  | fuel + 1, it, last =>
    if it.operator_ne last then
      (static_array2d_column_iterator.traverse fuel it.operator_inc last).map
        (fun ps => it._m_pos :: ps)
    else some []

/-! ### Offsets and comparisons of pointers -/

/-- Conversion of a `std::ptrdiff_t` value to `std::size_t`: reduction modulo
`2 ^ 64`. It is what the usual arithmetic conversions apply to `n` in
`n * _m_width`, whose other operand is a `std::size_t`. -/
def to_size (n : Int) : Nat := (n % (SIZE_MOD : Int)).toNat

/-- The `std::ptrdiff_t` value with the bits of a `std::size_t` value: the
integer of `[-2 ^ 63, 2 ^ 63)` congruent to it modulo `2 ^ 64`. -/
def to_ptrdiff (k : Nat) : Int :=
  if k % SIZE_MOD < SIZE_MOD / 2 then ((k % SIZE_MOD : Nat) : Int)
  else ((k % SIZE_MOD : Nat) : Int) - (SIZE_MOD : Int)

/-- Pointer arithmetic `p + k` for a `std::size_t` value `k` that may be the
image of a negative offset: the 64-bit address moves by `k * sizeof(T)` modulo
`2 ^ 64`, which is the address `to_ptrdiff k` elements away. For `k` below
`2 ^ 63` this is `p.add k`. -/
def Ptr.add_size (p : Ptr) (k : Nat) : Ptr := p.add (to_ptrdiff k)

/-- Pointer arithmetic `p - k` for a `std::size_t` value `k` that may be the
image of a negative offset, under the same 64-bit address arithmetic. -/
def Ptr.sub_size (p : Ptr) (k : Nat) : Ptr := p.sub (to_ptrdiff k)

/-- The built-in comparison `p == q` of two pointers. -/
def Ptr.eq (p q : Ptr) : Bool := decide (p = q)

/-- The built-in comparison `p != q` of two pointers. -/
def Ptr.ne (p q : Ptr) : Bool := decide (p ≠ q)

/-- The built-in comparison `p < q` of two pointers: addresses are totally
ordered, the buffers lying in allocation order. -/
def Ptr.lt (p q : Ptr) : Bool :=
  decide (p.blk < q.blk ∨ (p.blk = q.blk ∧ p.off < q.off))

/-- The built-in comparison `p > q` of two pointers. -/
def Ptr.gt (p q : Ptr) : Bool := Ptr.lt q p

/-- The built-in comparison `p <= q` of two pointers. -/
def Ptr.le (p q : Ptr) : Bool :=
  decide (p.blk < q.blk ∨ (p.blk = q.blk ∧ p.off ≤ q.off))

/-- The built-in comparison `p >= q` of two pointers. -/
def Ptr.ge (p q : Ptr) : Bool := Ptr.le q p

/-- The six comparison operators. -/
inductive CompareOp where
  | eq | ne | lt | gt | le | ge
deriving DecidableEq, Repr

/-- The built-in comparison `p op q` of two pointers. -/
def Ptr.compare (op : CompareOp) (p q : Ptr) : Bool :=
  match op with
  | CompareOp.eq => Ptr.eq p q
  | CompareOp.ne => Ptr.ne p q
  | CompareOp.lt => Ptr.lt p q
  | CompareOp.gt => Ptr.gt p q
  | CompareOp.le => Ptr.le p q
  | CompareOp.ge => Ptr.ge p q

/-- The 64-bit machine address of the object a pointer designates, buffer `b`
starting at address `base b` and an element taking `sizeofT` bytes: address
arithmetic wraps modulo `2 ^ 64`. -/
def Ptr.address (base : Nat → Int) (sizeofT : Nat) (p : Ptr) : Int :=
  (base p.blk + p.off * (sizeofT : Int)) % (SIZE_MOD : Int)

/-- The macro `ARRAY2D_ITER_COMPARE_OP(op, iter)`: each of the two functions it
defines, for a mutable and a const iterator in either order, is
`return a._m_pos op b._m_pos;`. -/
def ARRAY2D_ITER_COMPARE_OP (op : Ptr → Ptr → Bool) (a_m_pos b_m_pos : Ptr) : Bool :=
  op a_m_pos b_m_pos

/-- The macro `ARRAY2D_ITER_COMPARE_OP_GTE_LTE(op1, op2, iter)`: each of the two
functions it defines for `op1` is `return !(a._m_pos op2 b._m_pos);`. -/
def ARRAY2D_ITER_COMPARE_OP_GTE_LTE (op2 : Ptr → Ptr → Bool) (a_m_pos b_m_pos : Ptr) : Bool :=
  !(op2 a_m_pos b_m_pos)

/-! ### The linear iterator, remaining operators -/

/-- Member access `it->`: `return _m_pos;`. -/
def array2d_iterator.operator_arrow (it : array2d_iterator) : Ptr := it._m_pos

/-- Post-increment `it++`: `return array2d_iterator(_m_pos++);`. Returns the
iterator handed back and the iterator afterwards. -/
def array2d_iterator.operator_post_inc (it : array2d_iterator) :
    array2d_iterator × array2d_iterator :=
  (⟨it._m_pos⟩, ⟨it._m_pos.add 1⟩)

/-- Pre-decrement `--it`: `--_m_pos; return *this;`. -/
def array2d_iterator.operator_dec (it : array2d_iterator) : array2d_iterator :=
  ⟨it._m_pos.sub 1⟩

/-- Post-decrement `it--`: `return array2d_iterator(_m_pos--);`. Returns the
iterator handed back and the iterator afterwards. -/
def array2d_iterator.operator_post_dec (it : array2d_iterator) :
    array2d_iterator × array2d_iterator :=
  (⟨it._m_pos⟩, ⟨it._m_pos.sub 1⟩)

/-- Compound addition `it += n`: `_m_pos += n; return *this;`. -/
def array2d_iterator.operator_plus_assign (it : array2d_iterator) (n : Int) :
    array2d_iterator := ⟨it._m_pos.add n⟩

/-- Compound subtraction `it -= n`: `_m_pos -= n; return *this;`. -/
def array2d_iterator.operator_minus_assign (it : array2d_iterator) (n : Int) :
    array2d_iterator := ⟨it._m_pos.sub n⟩

/-- Subtraction `it - n`: `return array2d_iterator(_m_pos - n);`. -/
def array2d_iterator.operator_minus (it : array2d_iterator) (n : Int) : array2d_iterator :=
  ⟨it._m_pos.sub n⟩

/-- Subscript `it[n]`: the reference `*(_m_pos + n)`, as the location it
designates. -/
def array2d_iterator.operator_subscript (it : array2d_iterator) (n : Int) : Ptr :=
  it._m_pos.add n

/-- Comparison `a < b`: `return _m_pos < o._m_pos;`. -/
def array2d_iterator.operator_lt (a o : array2d_iterator) : Bool :=
  Ptr.lt a._m_pos o._m_pos

/-- Comparison `a > b`: `return _m_pos > o._m_pos;`. -/
def array2d_iterator.operator_gt (a o : array2d_iterator) : Bool :=
  Ptr.gt a._m_pos o._m_pos

/-- Comparison `a <= b`: `return !(_m_pos > o._m_pos);`. -/
def array2d_iterator.operator_le (a o : array2d_iterator) : Bool :=
  !(Ptr.gt a._m_pos o._m_pos)

/-- Comparison `a >= b`: `return !(_m_pos < o._m_pos);`. -/
def array2d_iterator.operator_ge (a o : array2d_iterator) : Bool :=
  !(Ptr.lt a._m_pos o._m_pos)

/-- The expansion `ARRAY2D_ITER_COMPARE(array2d_iterator)`: the comparison of a
mutable with a const linear iterator, in either order. -/
def array2d_iterator.mixed_compare (op : CompareOp) (a b : array2d_iterator) : Bool :=
  match op with
  | CompareOp.eq => ARRAY2D_ITER_COMPARE_OP Ptr.eq a._m_pos b._m_pos
  | CompareOp.ne => ARRAY2D_ITER_COMPARE_OP Ptr.ne a._m_pos b._m_pos
  | CompareOp.lt => ARRAY2D_ITER_COMPARE_OP Ptr.lt a._m_pos b._m_pos
  | CompareOp.gt => ARRAY2D_ITER_COMPARE_OP Ptr.gt a._m_pos b._m_pos
  | CompareOp.le => ARRAY2D_ITER_COMPARE_OP_GTE_LTE Ptr.gt a._m_pos b._m_pos
  | CompareOp.ge => ARRAY2D_ITER_COMPARE_OP_GTE_LTE Ptr.lt a._m_pos b._m_pos

/-! ### The dynamic-stride column iterator, remaining operators -/

/-- Member access `it->`: `return _m_pos;`. -/
def array2d_column_iterator.operator_arrow (it : array2d_column_iterator) : Ptr := it._m_pos

/-- Post-increment `it++`: `array2d_column_iterator tmp(*this);
_m_pos += _m_width; return tmp;`. Returns the iterator handed back (by value)
and the iterator afterwards. -/
def array2d_column_iterator.operator_post_inc (it : array2d_column_iterator) :
    array2d_column_iterator × array2d_column_iterator :=
  (it, ⟨it._m_pos.add it._m_width, it._m_width⟩)

/-- Pre-decrement `--it`: `_m_pos -= _m_width; return *this;`. -/
def array2d_column_iterator.operator_dec (it : array2d_column_iterator) :
    array2d_column_iterator :=
  ⟨it._m_pos.sub it._m_width, it._m_width⟩

/-- Post-decrement `it--`: `array2d_column_iterator tmp(*this);
_m_pos -= _m_width; return tmp;`. -/
def array2d_column_iterator.operator_post_dec (it : array2d_column_iterator) :
    array2d_column_iterator × array2d_column_iterator :=
  (it, ⟨it._m_pos.sub it._m_width, it._m_width⟩)

/-- Compound addition `it += n`: `_m_pos += (n * _m_width); return *this;`. The
product of the `std::ptrdiff_t` `n` and the `std::size_t` `_m_width` is a
`std::size_t`. -/
def array2d_column_iterator.operator_plus_assign (it : array2d_column_iterator) (n : Int) :
    array2d_column_iterator :=
  ⟨it._m_pos.add_size (size_mul (to_size n) it._m_width), it._m_width⟩

/-- Compound subtraction `it -= n`: `_m_pos -= (n * _m_width); return *this;`. -/
def array2d_column_iterator.operator_minus_assign (it : array2d_column_iterator) (n : Int) :
    array2d_column_iterator :=
  ⟨it._m_pos.sub_size (size_mul (to_size n) it._m_width), it._m_width⟩

/-- Addition `it + n`:
`return array2d_column_iterator(_m_pos + n * _m_width, _m_width);`. -/
def array2d_column_iterator.operator_plus (it : array2d_column_iterator) (n : Int) :
    array2d_column_iterator :=
  array2d_column_iterator.mk (it._m_pos.add_size (size_mul (to_size n) it._m_width)) it._m_width

/-- Subtraction `it - n`:
`return array2d_column_iterator(_m_pos - n * _m_width, _m_width);`. -/
def array2d_column_iterator.operator_minus (it : array2d_column_iterator) (n : Int) :
    array2d_column_iterator :=
  array2d_column_iterator.mk (it._m_pos.sub_size (size_mul (to_size n) it._m_width)) it._m_width

/-- Subscript `it[n]`: the reference `*(_m_pos + n * _m_width)`. -/
def array2d_column_iterator.operator_subscript (it : array2d_column_iterator) (n : Int) :
    Ptr :=
  it._m_pos.add_size (size_mul (to_size n) it._m_width)

/-- Comparison `a < b`: `return _m_pos < o._m_pos;`. -/
def array2d_column_iterator.operator_lt (a o : array2d_column_iterator) : Bool :=
  Ptr.lt a._m_pos o._m_pos

/-- Comparison `a > b`: `return _m_pos > o._m_pos;`. -/
def array2d_column_iterator.operator_gt (a o : array2d_column_iterator) : Bool :=
  Ptr.gt a._m_pos o._m_pos

/-- Comparison `a <= b`: `return !(_m_pos > o._m_pos);`. -/
def array2d_column_iterator.operator_le (a o : array2d_column_iterator) : Bool :=
  !(Ptr.gt a._m_pos o._m_pos)

/-- Comparison `a >= b`: `return !(_m_pos < o._m_pos);`. -/
def array2d_column_iterator.operator_ge (a o : array2d_column_iterator) : Bool :=
  !(Ptr.lt a._m_pos o._m_pos)

/-- The expansion `ARRAY2D_ITER_COMPARE(array2d_column_iterator)`: the
comparison of a mutable with a const column iterator, in either order. -/
def array2d_column_iterator.mixed_compare (op : CompareOp)
    (a b : array2d_column_iterator) : Bool :=
  match op with
  | CompareOp.eq => ARRAY2D_ITER_COMPARE_OP Ptr.eq a._m_pos b._m_pos
  | CompareOp.ne => ARRAY2D_ITER_COMPARE_OP Ptr.ne a._m_pos b._m_pos
  | CompareOp.lt => ARRAY2D_ITER_COMPARE_OP Ptr.lt a._m_pos b._m_pos
  | CompareOp.gt => ARRAY2D_ITER_COMPARE_OP Ptr.gt a._m_pos b._m_pos
  | CompareOp.le => ARRAY2D_ITER_COMPARE_OP_GTE_LTE Ptr.gt a._m_pos b._m_pos
  | CompareOp.ge => ARRAY2D_ITER_COMPARE_OP_GTE_LTE Ptr.lt a._m_pos b._m_pos

/-- The constructor call `array2d_column_iterator(pos)` with one pointer, as
`emplacer<column_iterator>::emplace` writes it (`return Iter(pos);`). The struct
declares `array2d_column_iterator()`, `array2d_column_iterator(pointer,
std::size_t)` and the converting constructor from another
`array2d_column_iterator`; none accepts a single pointer, so the call is
ill-formed and produces no iterator. -/
def array2d_column_iterator.ctor_from_pointer (_pos : Ptr) : Option array2d_column_iterator :=
  none

/-! ### The static-stride column iterator, remaining operators -/

/-- Member access `it->`: `return _m_pos;`. -/
def static_array2d_column_iterator.operator_arrow {Width : Nat}
    (it : static_array2d_column_iterator Width) : Ptr := it._m_pos

/-- Post-increment `it++`, declared
`static_array2d_column_iterator& operator++(int)`:
`static_array2d_column_iterator tmp(*this); _m_pos += Width; return tmp;`. The
reference handed back designates the local `tmp`, whose lifetime has ended when
the caller receives it, so the caller is handed no iterator (`none`). The
second component is the iterator afterwards. -/
def static_array2d_column_iterator.operator_post_inc {Width : Nat}
    (it : static_array2d_column_iterator Width) :
    Option (static_array2d_column_iterator Width) × static_array2d_column_iterator Width :=
  (none, ⟨it._m_pos.add Width⟩)

/-- Pre-decrement `--it`: `_m_pos -= Width; return *this;`. -/
def static_array2d_column_iterator.operator_dec {Width : Nat}
    (it : static_array2d_column_iterator Width) : static_array2d_column_iterator Width :=
  ⟨it._m_pos.sub Width⟩

/-- Post-decrement `it--`, declared to return by value:
`static_array2d_column_iterator tmp(*this); _m_pos -= Width; return tmp;`. -/
def static_array2d_column_iterator.operator_post_dec {Width : Nat}
    (it : static_array2d_column_iterator Width) :
    static_array2d_column_iterator Width × static_array2d_column_iterator Width :=
  (it, ⟨it._m_pos.sub Width⟩)

/-- Compound addition `it += n`: `_m_pos += (n * Width); return *this;`. -/
def static_array2d_column_iterator.operator_plus_assign {Width : Nat}
    (it : static_array2d_column_iterator Width) (n : Int) :
    static_array2d_column_iterator Width :=
  ⟨it._m_pos.add_size (size_mul (to_size n) Width)⟩

/-- Compound subtraction `it -= n`: `_m_pos -= (n * Width); return *this;`. -/
def static_array2d_column_iterator.operator_minus_assign {Width : Nat}
    (it : static_array2d_column_iterator Width) (n : Int) :
    static_array2d_column_iterator Width :=
  ⟨it._m_pos.sub_size (size_mul (to_size n) Width)⟩

/-- Addition `it + n`: `return static_array2d_column_iterator(_m_pos + n * Width);`. -/
def static_array2d_column_iterator.operator_plus {Width : Nat}
    (it : static_array2d_column_iterator Width) (n : Int) :
    static_array2d_column_iterator Width :=
  ⟨it._m_pos.add_size (size_mul (to_size n) Width)⟩

/-- Subtraction `it - n`: `return static_array2d_column_iterator(_m_pos - n * Width);`. -/
def static_array2d_column_iterator.operator_minus {Width : Nat}
    (it : static_array2d_column_iterator Width) (n : Int) :
    static_array2d_column_iterator Width :=
  ⟨it._m_pos.sub_size (size_mul (to_size n) Width)⟩

/-- Subscript `it[n]`: the reference `*(_m_pos + n * Width)`. -/
def static_array2d_column_iterator.operator_subscript {Width : Nat}
    (it : static_array2d_column_iterator Width) (n : Int) : Ptr :=
  it._m_pos.add_size (size_mul (to_size n) Width)

/-- Comparison `a < b`: `return _m_pos < o._m_pos;`. -/
def static_array2d_column_iterator.operator_lt {Width : Nat}
    (a o : static_array2d_column_iterator Width) : Bool := Ptr.lt a._m_pos o._m_pos

/-- Comparison `a > b`: `return _m_pos > o._m_pos;`. -/
def static_array2d_column_iterator.operator_gt {Width : Nat}
    (a o : static_array2d_column_iterator Width) : Bool := Ptr.gt a._m_pos o._m_pos

/-- Comparison `a <= b`: `return !(_m_pos > o._m_pos);`. -/
def static_array2d_column_iterator.operator_le {Width : Nat}
    (a o : static_array2d_column_iterator Width) : Bool := !(Ptr.gt a._m_pos o._m_pos)

/-- Comparison `a >= b`: `return !(_m_pos < o._m_pos);`. -/
def static_array2d_column_iterator.operator_ge {Width : Nat}
    (a o : static_array2d_column_iterator Width) : Bool := !(Ptr.lt a._m_pos o._m_pos)

/-- The six expansions of `ARRAY2D_ITER_COMPARE_OP` and
`ARRAY2D_ITER_COMPARE_OP_GTE_LTE` for `static_array2d_column_iterator`: the
comparison of a mutable with a const iterator of one width, in either order. -/
def static_array2d_column_iterator.mixed_compare {Width : Nat} (op : CompareOp)
    (a b : static_array2d_column_iterator Width) : Bool :=
  match op with
  | CompareOp.eq => ARRAY2D_ITER_COMPARE_OP Ptr.eq a._m_pos b._m_pos
  | CompareOp.ne => ARRAY2D_ITER_COMPARE_OP Ptr.ne a._m_pos b._m_pos
  | CompareOp.lt => ARRAY2D_ITER_COMPARE_OP Ptr.lt a._m_pos b._m_pos
  | CompareOp.gt => ARRAY2D_ITER_COMPARE_OP Ptr.gt a._m_pos b._m_pos
  | CompareOp.le => ARRAY2D_ITER_COMPARE_OP_GTE_LTE Ptr.gt a._m_pos b._m_pos
  | CompareOp.ge => ARRAY2D_ITER_COMPARE_OP_GTE_LTE Ptr.lt a._m_pos b._m_pos

/-! ## The in-place reconstruction dispatcher -/

/-- The static member `emplacer<Iter, Trivial>::emplace(pos, args...)`, the value
constructed from `args...` being `v` and `mk` being the constructor call
`Iter(pos)`. The primary template (`Trivial = true`) is
`new (pos) value_type(args...); return Iter(pos);`; the specialisation
`emplacer<Iter, false>` first runs `pos->~value_type();`. -/
def emplacer.emplace {T Iter : Type} (Trivial : Bool) (mk : Ptr → Iter) (h : Heap T)
    (pos : Ptr) (v : T) : Option (Iter × Heap T) :=
  match Trivial with
  | true => (h.construct pos v).map (fun h1 => (mk pos, h1))
  | false =>
    match h.destroy pos with
    | none => none
    | some h0 => (h0.construct pos v).map (fun h1 => (mk pos, h1))

/-! ## The dynamic array -/

/-- The data members of `class array2d<T>`. -/
structure array2d where
  m_width : Nat
  m_height : Nat
  m_data : Ptr
deriving DecidableEq, Repr

/-- The constructor `array2d(size_type width, size_type height)`:
`m_width(width), m_height(height), m_data(new T[m_width * m_height])`. -/
def array2d.ctor {T : Type} (h : Heap T) (init : Option T) (width height : Nat) :
    array2d × Heap T :=
  let r := h.new_array init (size_mul width height)
  (⟨width, height, r.1⟩, r.2)

/-- The destructor `~array2d() { delete[] m_data; }`. -/
def array2d.dtor {T : Type} (trivial : Bool) (A : array2d) (h : Heap T) :
    Option (Heap T) :=
  h.delete_array trivial A.m_data

/-- The move constructor `array2d(array2d&& o)`: the new object takes `o`'s
members and then `o.m_data = nullptr`. Returns the new object and `o` afterwards. -/
def array2d.move_ctor (o : array2d) : array2d × array2d :=
  (⟨o.m_width, o.m_height, o.m_data⟩, { o with m_data := nullptr })

/-- The copy constructor `array2d(const array2d& o)`: the members are initialised
in declaration order (`m_width`, `m_height`, then `m_data` with raw storage of
`o.m_width * o.m_height * sizeof(T)` bytes) and the body runs
`std::uninitialized_copy_n(o.m_data, m_width * m_height, m_data)`. -/
def array2d.copy_ctor {T : Type} (sizeofT : Nat) (h : Heap T) (o : array2d) :
    Option (array2d × Heap T) :=
  let r := h.new_raw sizeofT (size_mul (size_mul o.m_width o.m_height) sizeofT)
  let self : array2d := ⟨o.m_width, o.m_height, r.1⟩
  (uninitialized_copy_n r.2 o.m_data (size_mul self.m_width self.m_height) self.m_data).map
    (fun h1 => (self, h1))

/-- The copy assignment `array2d& operator=(const array2d& o)` on an object `self`
other than `o`, statement by statement: `m_data` is replaced by raw storage of
`o.m_width * o.m_height * sizeof(T)` bytes,
`std::uninitialized_copy_n(o.m_data, m_width * m_height, m_data)` runs with the
members `m_width` and `m_height` of `self` as they are at that point, and only
then `m_width = o.m_width; m_height = o.m_height;`. -/
def array2d.copy_assign {T : Type} (sizeofT : Nat) (h : Heap T) (self o : array2d) :
    Option (array2d × Heap T) :=
  let r := h.new_raw sizeofT (size_mul (size_mul o.m_width o.m_height) sizeofT)
  let self1 : array2d := { self with m_data := r.1 }
  match uninitialized_copy_n r.2 o.m_data (size_mul self1.m_width self1.m_height)
      self1.m_data with
  | none => none
  | some h1 =>
    let self2 : array2d := { self1 with m_width := o.m_width }
    let self3 : array2d := { self2 with m_height := o.m_height }
    some (self3, h1)

/-- The move assignment `array2d& operator=(array2d&& o)` on an object `self`
other than `o`: `m_data = o.m_data; o.m_data = nullptr; m_width = o.m_width;
m_height = o.m_height;`. Returns `self` and `o` afterwards. -/
def array2d.move_assign (self o : array2d) : array2d × array2d :=
  let self1 : array2d := { self with m_data := o.m_data }
  let o1 : array2d := { o with m_data := nullptr }
  let self2 : array2d := { self1 with m_width := o1.m_width }
  let self3 : array2d := { self2 with m_height := o1.m_height }
  (self3, o1)

/-- The accessor `width()`. -/
def array2d.width (A : array2d) : Nat := A.m_width

/-- The accessor `height()`. -/
def array2d.height (A : array2d) : Nat := A.m_height

/-- The member `begin()`: `iterator(m_data)`. -/
def array2d.begin (A : array2d) : array2d_iterator := ⟨A.m_data⟩

/-- The member `end()`: `iterator(m_data + m_width * m_height)`. -/
def array2d.end (A : array2d) : array2d_iterator :=
  ⟨A.m_data.add (size_mul A.m_width A.m_height)⟩

/-- The member `row_begin(y)`: `row_iterator(m_data + y * m_width)`. -/
def array2d.row_begin (A : array2d) (y : Nat) : array2d_iterator :=
  ⟨A.m_data.add (size_mul y A.m_width)⟩

/-- The member `row_end(y)`: `row_iterator(m_data + y * m_width + m_width)`. -/
def array2d.row_end (A : array2d) (y : Nat) : array2d_iterator :=
  ⟨(A.m_data.add (size_mul y A.m_width)).add A.m_width⟩

/-- The member `column_begin(x)`: `column_iterator(m_data + x, m_width)`. -/
def array2d.column_begin (A : array2d) (x : Nat) : array2d_column_iterator :=
  ⟨A.m_data.add x, A.m_width⟩

/-- The member `column_end(x)`:
`column_iterator(m_data + m_height * m_width + x, m_width)`. -/
def array2d.column_end (A : array2d) (x : Nat) : array2d_column_iterator :=
  ⟨(A.m_data.add (size_mul A.m_height A.m_width)).add x, A.m_width⟩

/-- The member `index(x, y)`: the reference `m_data[y * m_width + x]`, as the
location it designates. -/
def array2d.index (A : array2d) (x y : Nat) : Ptr :=
  A.m_data.add (size_add (size_mul y A.m_width) x)

/-- The member `operator()(x, y)`: the reference `m_data[y * m_width + x]`. -/
def array2d.operator_call (A : array2d) (x y : Nat) : Ptr :=
  A.m_data.add (size_add (size_mul y A.m_width) x)

/-- The member `emplace(x, y, args...)`: `pointer pos = m_data + y * m_width + x;
return emplacer<iterator>::emplace(pos, args...);`. Returns the iterator, the
array object afterwards and the memory afterwards. -/
def array2d.emplace {T : Type} (Trivial : Bool) (A : array2d) (h : Heap T) (x y : Nat)
    (v : T) : Option (array2d_iterator × array2d × Heap T) :=
  let pos := (A.m_data.add (size_mul y A.m_width)).add x
  (emplacer.emplace Trivial array2d_iterator.mk h pos v).map (fun r => (r.1, A, r.2))

/-! ## The fixed-size array -/

/-- The data member of `class static_array2d<T, Width, Height>`: the inline
array `T m_data[size]`, identified by its address. -/
structure static_array2d (Width Height : Nat) where
  m_data : Ptr
deriving DecidableEq, Repr

/-- The constant `static constexpr size_type size = Width * Height * sizeof(T);`. -/
def static_array2d.size (Width Height sizeofT : Nat) : Nat :=
  size_mul (size_mul Width Height) sizeofT

/-- The constructor `static_array2d() { }`: the member `T m_data[size]` is
default-initialised, so the object's storage is `size` default-initialised
elements. -/
def static_array2d.ctor {T : Type} (Width Height sizeofT : Nat) (h : Heap T)
    (init : Option T) : static_array2d Width Height × Heap T :=
  let r := h.new_array init (static_array2d.size Width Height sizeofT)
  (⟨r.1⟩, r.2)

/-- The member `begin()`: `iterator(m_data)`. -/
def static_array2d.begin {Width Height : Nat} (S : static_array2d Width Height) :
    array2d_iterator := ⟨S.m_data⟩

/-- The member `end()`: `iterator(m_data + Width * Height)`. -/
def static_array2d.end {Width Height : Nat} (S : static_array2d Width Height) :
    array2d_iterator := ⟨S.m_data.add (size_mul Width Height)⟩

/-- The member `row_begin(y)`: `row_iterator(m_data + y * Width)`. -/
def static_array2d.row_begin {Width Height : Nat} (S : static_array2d Width Height)
    (y : Nat) : array2d_iterator := ⟨S.m_data.add (size_mul y Width)⟩

/-- The member `row_end(y)`: `row_iterator(m_data + y * Width + Width)`. -/
def static_array2d.row_end {Width Height : Nat} (S : static_array2d Width Height)
    (y : Nat) : array2d_iterator := ⟨(S.m_data.add (size_mul y Width)).add Width⟩

/-- The member `column_begin(x)`: `column_iterator(m_data + x)`. -/
def static_array2d.column_begin {Width Height : Nat} (S : static_array2d Width Height)
    (x : Nat) : static_array2d_column_iterator Width := ⟨S.m_data.add x⟩

/-- The member `column_end(x)`: `column_iterator(m_data + Height * Width + x)`. -/
def static_array2d.column_end {Width Height : Nat} (S : static_array2d Width Height)
    (x : Nat) : static_array2d_column_iterator Width :=
  ⟨(S.m_data.add (size_mul Height Width)).add x⟩

/-- The member `index(x, y)`: the reference `m_data[y * Width + x]`. -/
def static_array2d.index {Width Height : Nat} (S : static_array2d Width Height)
    (x y : Nat) : Ptr := S.m_data.add (size_add (size_mul y Width) x)

/-- The member `operator()(x, y)`: the reference `m_data[y * Width + x]`. -/
def static_array2d.operator_call {Width Height : Nat} (S : static_array2d Width Height)
    (x y : Nat) : Ptr := S.m_data.add (size_add (size_mul y Width) x)

/-- The member `emplace(x, y, args...)`: `pointer pos = m_data + y * Width + x;
return emplacer<iterator>::emplace(pos, args...);`. -/
def static_array2d.emplace {T : Type} {Width Height : Nat} (Trivial : Bool)
    (S : static_array2d Width Height) (h : Heap T) (x y : Nat) (v : T) :
    Option (array2d_iterator × static_array2d Width Height × Heap T) :=
  let pos := (S.m_data.add (size_mul y Width)).add x
  (emplacer.emplace Trivial array2d_iterator.mk h pos v).map (fun r => (r.1, S, r.2))

/-! ## Iterator-addressed reconstruction and fixed-size copies -/

/-- The member `array2d::emplace(iterator pos, args...)`:
`return emplacer<iterator>::emplace(pos._m_pos, args...);`. -/
def array2d.emplace_iterator {T : Type} (Trivial : Bool) (A : array2d) (h : Heap T)
    (pos : array2d_iterator) (v : T) : Option (array2d_iterator × array2d × Heap T) :=
  (emplacer.emplace Trivial array2d_iterator.mk h pos._m_pos v).map (fun r => (r.1, A, r.2))

/-- The member `array2d::emplace(column_iterator pos, args...)`:
`return emplacer<column_iterator>::emplace(pos._m_pos, args...);`, whose
`return Iter(pos);` is the one-pointer constructor call of
`array2d_column_iterator`. That call being ill-formed, the member cannot be
instantiated and no call of it has a result. -/
def array2d.emplace_column_iterator {T : Type} (Trivial : Bool) (A : array2d) (h : Heap T)
    (pos : array2d_column_iterator) (v : T) :
    Option (array2d_column_iterator × array2d × Heap T) :=
  match array2d_column_iterator.ctor_from_pointer pos._m_pos with
  | none => none
  | some it => (emplacer.emplace Trivial (fun _ => it) h pos._m_pos v).map
      (fun r => (r.1, A, r.2))

/-- The member `static_array2d::emplace(iterator pos, args...)`:
`return emplacer<iterator>::emplace(pos._m_pos, args...);`. -/
def static_array2d.emplace_iterator {T : Type} {Width Height : Nat} (Trivial : Bool)
    (S : static_array2d Width Height) (h : Heap T) (pos : array2d_iterator) (v : T) :
    Option (array2d_iterator × static_array2d Width Height × Heap T) :=
  (emplacer.emplace Trivial array2d_iterator.mk h pos._m_pos v).map (fun r => (r.1, S, r.2))

/-- The member `static_array2d::emplace(column_iterator pos, args...)`:
`return emplacer<column_iterator>::emplace(pos._m_pos, args...);`, where
`Iter(pos)` is the constructor `static_array2d_column_iterator(pointer pos)`. -/
def static_array2d.emplace_column_iterator {T : Type} {Width Height : Nat} (Trivial : Bool)
    (S : static_array2d Width Height) (h : Heap T)
    (pos : static_array2d_column_iterator Width) (v : T) :
    Option (static_array2d_column_iterator Width × static_array2d Width Height × Heap T) :=
  (emplacer.emplace Trivial static_array2d_column_iterator.mk h pos._m_pos v).map
    (fun r => (r.1, S, r.2))

/-- The loop of `std::copy`: for each of `n` elements in turn, the assignment
`*d_first = *first` from the live object `*first`, then both advance. -/
def std_copy_loop {T : Type} (h : Heap T) (first : Ptr) : Nat → Ptr → Option (Heap T)
  | 0, _ => some h
  | n + 1, d_first =>
    match h.load first with
    | none => none
    | some v =>
      match h.store d_first v with
      | none => none
      | some h1 => std_copy_loop h1 (first.add 1) n (d_first.add 1)

/-- The expression `last - first` on two `array2d_iterator`s. The struct
declares `operator-(difference_type n)` and no other subtraction, no free
`operator-` is declared for it, and an iterator does not convert to
`difference_type`; the difference of two iterators is therefore ill-formed and
has no value. -/
def array2d_iterator.operator_minus_iterator (_last _first : array2d_iterator) :
    Option Int :=
  none

/-- The algorithm `std::copy(first, last, d_first)` over linear iterators. The
iterators declare `iterator_category` as `std::random_access_iterator_tag`, for
which the library takes the element count as `last - first` and then assigns
that many elements in order. -/
def std_copy {T : Type} (h : Heap T) (first last d_first : array2d_iterator) :
    Option (Heap T) :=
  match array2d_iterator.operator_minus_iterator last first with
  | none => none
  | some n => std_copy_loop h first._m_pos n.toNat d_first._m_pos

/-- The copy constructor `static_array2d(const static_array2d& o)`: the member
`m_data` is default-initialised, then the body runs
`std::copy(o.begin(), o.end(), begin());`. That call being ill-formed, the
constructor cannot be instantiated and no copy construction has a result. -/
def static_array2d.copy_ctor {T : Type} (Width Height sizeofT : Nat) (h : Heap T)
    (init : Option T) (o : static_array2d Width Height) :
    Option (static_array2d Width Height × Heap T) :=
  let r := static_array2d.ctor Width Height sizeofT h init
  (std_copy r.2 o.begin o.end r.1.begin).map (fun h1 => (r.1, h1))

/-- The copy assignment `static_array2d& operator=(const static_array2d& o)`:
`std::copy(o.begin(), o.end(), begin()); return *this;`. That call being
ill-formed, the operator cannot be instantiated and no copy assignment has a
result. -/
def static_array2d.copy_assign {T : Type} {Width Height : Nat} (h : Heap T)
    (self o : static_array2d Width Height) :
    Option (static_array2d Width Height × Heap T) :=
  (std_copy h o.begin o.end self.begin).map (fun h1 => (self, h1))

/-- Default-initialisation of an `int`: no initialisation is performed, the
slot holds no determinate value. -/
def default_init_int : Option Int := none

/-! ## The concrete scenarios -/

/-- The dynamic array of the 3 by 2 scenario: width 3, height 2, its buffer the
first allocation. -/
def scenario_array : array2d := ⟨3, 2, ⟨1, 0⟩⟩

/-- The memory of the 3 by 2 scenario once the six coordinates are set:
(0,0)=1, (1,0)=2, (2,0)=3, (0,1)=4, (1,1)=5, (2,1)=6. -/
def scenario_heap : Heap Int :=
  ⟨[some [some 1, some 2, some 3, some 4, some 5, some 6]], [], [], []⟩

/-- The construction of the 3 by 2 scenario: `array2d<int> a(3, 2)` followed by
the six assignments `a.index(x, y) = v`. -/
def scenario_build : Option (array2d × Heap Int) :=
  let r := array2d.ctor (Heap.empty : Heap Int) none 3 2
  ((((((r.2.store (r.1.index 0 0) 1).bind
    (fun h => h.store (r.1.index 1 0) 2)).bind
    (fun h => h.store (r.1.index 2 0) 3)).bind
    (fun h => h.store (r.1.index 0 1) 4)).bind
    (fun h => h.store (r.1.index 1 1) 5)).bind
    (fun h => h.store (r.1.index 2 1) 6)).map (fun h => (r.1, h))

/-- A fixed-size array `static_array2d<int, 3, 2>` whose inline buffer is the
first allocation. -/
def scenario_static : static_array2d 3 2 := ⟨⟨1, 0⟩⟩

/-- The memory of the 3 by 2 scenario together with a second dynamic array,
1 by 1, whose element is 0. -/
def scenario_heap_pair : Heap Int :=
  ⟨[some [some 1, some 2, some 3, some 4, some 5, some 6], some [some 0]], [], [], []⟩

/-- The 1 by 1 dynamic array of `scenario_heap_pair`. -/
def scenario_small : array2d := ⟨1, 1, ⟨2, 0⟩⟩

/-- The memory of the 3 by 2 scenario together with a second dynamic array,
3 by 3, whose elements are 0. -/
def scenario_heap_large : Heap Int :=
  ⟨[some [some 1, some 2, some 3, some 4, some 5, some 6],
    some [some 0, some 0, some 0, some 0, some 0, some 0, some 0, some 0, some 0]], [], [],
    []⟩

/-- The 3 by 3 dynamic array of `scenario_heap_large`. -/
def scenario_large : array2d := ⟨3, 3, ⟨2, 0⟩⟩

/-- A fixed-size array `static_array2d<int, 2, 2>` whose inline buffer is the
first allocation. -/
def scenario_square : static_array2d 2 2 := ⟨⟨1, 0⟩⟩

/-- The memory holding `scenario_square`, an `int` taking 4 bytes: the member
array has `size = 2 * 2 * 4 = 16` slots, each holding 0. -/
def scenario_square_heap : Heap Int :=
  ⟨[some (List.replicate 16 (some 0))], [], [], []⟩

/-- The memory holding two fixed-size arrays `static_array2d<int, 2, 2>`, an
`int` taking 4 bytes: the first reads 1, 2, 3, 4 at (0,0), (1,0), (0,1), (1,1),
the second reads 0 everywhere. -/
def scenario_squares_heap : Heap Int :=
  ⟨[some ([some 1, some 2, some 3, some 4] ++ List.replicate 12 (some 0)),
    some (List.replicate 16 (some 0))], [], [], []⟩

/-- The second fixed-size array of `scenario_squares_heap`; the first is
`scenario_square`. -/
def scenario_square_copy : static_array2d 2 2 := ⟨⟨2, 0⟩⟩

/-- The copy `array2d<int> A(A0)` of the 3 by 2 scenario array `A0`: its buffer
is the second allocation. -/
def scenario_copied : array2d := ⟨3, 2, ⟨2, 0⟩⟩

/-- The memory after that copy construction: buffer 2 is storage obtained from
`new char[]` in which the six elements were copy-constructed. -/
def scenario_heap_copied : Heap Int :=
  ⟨[some [some 1, some 2, some 3, some 4, some 5, some 6],
    some [some 1, some 2, some 3, some 4, some 5, some 6]], [],
    [Event.construct ⟨2, 0⟩, Event.construct ⟨2, 1⟩, Event.construct ⟨2, 2⟩,
      Event.construct ⟨2, 3⟩, Event.construct ⟨2, 4⟩, Event.construct ⟨2, 5⟩], [2]⟩

/-! ## Arithmetic and pointer lemmas -/

theorem linear_offset_lt {w h x y : Nat} (hx : x < w) (hy : y < h) : y * w + x < w * h := by
  have h1 : (y + 1) * w ≤ h * w := Nat.mul_le_mul_right w hy
  have h2 : (y + 1) * w = y * w + w := by ring
  have h3 : h * w = w * h := Nat.mul_comm h w
  omega

theorem size_mul_exact {a b : Nat} (hab : a * b < SIZE_MOD) : size_mul a b = a * b := by
  unfold size_mul
  exact Nat.mod_eq_of_lt hab

theorem row_offset_exact {w h y : Nat} (hfit : w * h < SIZE_MOD) (hy : y < h) :
    size_mul y w = y * w := by
  apply size_mul_exact
  have h1 : y * w ≤ h * w := Nat.mul_le_mul_right w (Nat.le_of_lt hy)
  have h3 : h * w = w * h := Nat.mul_comm h w
  omega

theorem linear_offset_exact {w h x y : Nat} (hfit : w * h < SIZE_MOD) (hx : x < w)
    (hy : y < h) : size_add (size_mul y w) x = y * w + x := by
  have h1 := linear_offset_lt hx hy
  rw [row_offset_exact hfit hy]
  unfold size_add
  exact Nat.mod_eq_of_lt (by omega)

theorem linear_offset_inj {w x y x' y' : Nat} (hx : x < w) (hx' : x' < w)
    (he : y * w + x = y' * w + x') : x = x' ∧ y = y' := by
  have hw : 0 < w := by omega
  have e1 : (y * w + x) % w = x := by
    rw [Nat.add_comm, Nat.add_mul_mod_self_right]; exact Nat.mod_eq_of_lt hx
  have e2 : (y' * w + x') % w = x' := by
    rw [Nat.add_comm, Nat.add_mul_mod_self_right]; exact Nat.mod_eq_of_lt hx'
  have hxx : x = x' := by rw [← e1, ← e2, he]
  subst hxx
  have hm : y * w = y' * w := by omega
  exact ⟨rfl, Nat.eq_of_mul_eq_mul_right hw hm⟩

theorem Ptr.add_add (p : Ptr) (a b : Int) : (p.add a).add b = p.add (a + b) := by
  simp [Ptr.add, add_assoc]

theorem Ptr.add_zero (p : Ptr) : p.add 0 = p := by
  simp [Ptr.add]

theorem Ptr.add_inj (p : Ptr) (a b : Int) : p.add a = p.add b ↔ a = b := by
  simp [Ptr.add]

/-! ## Traversal lemmas -/

theorem array2d_iterator.linear_iterate_inc (n : Nat) (p : Ptr) :
    Nat.iterate array2d_iterator.operator_inc n ⟨p⟩ = ⟨p.add n⟩ := by
  induction n generalizing p with
  | zero => simp [Ptr.add]
  | succ n ih =>
    rw [Function.iterate_succ_apply]
    simp only [array2d_iterator.operator_inc]
    rw [ih, Ptr.add_add]
    congr 2
    push_cast
    ring

theorem array2d_iterator.linear_traverse_run (n : Nat) :
    ∀ (fuel : Nat) (p : Ptr), n < fuel →
      array2d_iterator.traverse fuel ⟨p⟩ ⟨p.add n⟩ =
        some ((List.range n).map (fun k => p.add (k : Nat))) := by
  induction n with
  | zero =>
    intro fuel p hf
    obtain ⟨f, rfl⟩ : ∃ f, fuel = f + 1 := ⟨fuel - 1, by omega⟩
    simp [array2d_iterator.traverse, array2d_iterator.operator_ne, Ptr.add]
  | succ n ih =>
    intro fuel p hf
    obtain ⟨f, rfl⟩ : ∃ f, fuel = f + 1 := ⟨fuel - 1, by omega⟩
    have hne : (⟨p⟩ : array2d_iterator).operator_ne ⟨p.add ((n + 1 : Nat) : Int)⟩ = true := by
      simp only [array2d_iterator.operator_ne, decide_eq_true_eq, ne_eq]
      intro hp
      have h0 : p.add 0 = p.add ((n + 1 : Nat) : Int) := by rw [Ptr.add_zero]; exact hp
      have := (Ptr.add_inj p 0 _).1 h0
      omega
    have hlast : p.add ((n + 1 : Nat) : Int) = (p.add 1).add (n : Nat) := by
      rw [Ptr.add_add]; congr 1; push_cast; ring
    rw [array2d_iterator.traverse, if_pos hne]
    simp only [array2d_iterator.operator_inc]
    rw [hlast, ih f (p.add 1) (by omega)]
    simp only [Option.map_some', List.range_succ_eq_map, List.map_cons, List.map_map]
    congr 2
    · simp [Ptr.add]
    · apply List.map_congr_left
      intro k _
      simp only [Function.comp]
      rw [Ptr.add_add]; congr 1; push_cast; ring

theorem array2d_column_iterator.column_iterate_inc (n w : Nat) (p : Ptr) :
    Nat.iterate array2d_column_iterator.operator_inc n ⟨p, w⟩ = ⟨p.add ((n * w : Nat) : Int), w⟩ := by
  induction n generalizing p with
  | zero => simp [Ptr.add]
  | succ n ih =>
    rw [Function.iterate_succ_apply]
    simp only [array2d_column_iterator.operator_inc]
    rw [ih, Ptr.add_add]
    congr 2
    push_cast
    ring

theorem array2d_column_iterator.column_traverse_run (w w' : Nat) (hw : 0 < w) (n : Nat) :
    ∀ (fuel : Nat) (p : Ptr), n < fuel →
      array2d_column_iterator.traverse fuel ⟨p, w⟩ ⟨p.add ((n * w : Nat) : Int), w'⟩ =
        some ((List.range n).map (fun k => p.add ((k * w : Nat) : Int))) := by
  induction n with
  | zero =>
    intro fuel p hf
    obtain ⟨f, rfl⟩ : ∃ f, fuel = f + 1 := ⟨fuel - 1, by omega⟩
    simp [array2d_column_iterator.traverse, array2d_column_iterator.operator_ne, Ptr.add]
  | succ n ih =>
    intro fuel p hf
    obtain ⟨f, rfl⟩ : ∃ f, fuel = f + 1 := ⟨fuel - 1, by omega⟩
    have hpos : 0 < (n + 1) * w := Nat.mul_pos (Nat.succ_pos n) hw
    have hne : (⟨p, w⟩ : array2d_column_iterator).operator_ne
        ⟨p.add (((n + 1) * w : Nat) : Int), w'⟩ = true := by
      simp only [array2d_column_iterator.operator_ne, decide_eq_true_eq, ne_eq]
      intro hp
      have h0 : p.add 0 = p.add (((n + 1) * w : Nat) : Int) := by rw [Ptr.add_zero]; exact hp
      have := (Ptr.add_inj p 0 _).1 h0
      omega
    have hlast : p.add (((n + 1) * w : Nat) : Int) = (p.add (w : Nat)).add ((n * w : Nat) : Int) := by
      rw [Ptr.add_add]; congr 1; push_cast; ring
    rw [array2d_column_iterator.traverse, if_pos hne]
    simp only [array2d_column_iterator.operator_inc]
    rw [hlast, ih f (p.add (w : Nat)) (by omega)]
    simp only [Option.map_some', List.range_succ_eq_map, List.map_cons, List.map_map]
    congr 2
    · simp [Ptr.add]
    · apply List.map_congr_left
      intro k _
      simp only [Function.comp]
      rw [Ptr.add_add]; congr 1; push_cast; ring

theorem static_array2d_column_iterator.static_column_iterate_inc {W : Nat} (n : Nat) (p : Ptr) :
    Nat.iterate (static_array2d_column_iterator.operator_inc : static_array2d_column_iterator W → _) n ⟨p⟩ = ⟨p.add ((n * W : Nat) : Int)⟩ := by
  induction n generalizing p with
  | zero => simp [Ptr.add]
  | succ n ih =>
    rw [Function.iterate_succ_apply]
    simp only [static_array2d_column_iterator.operator_inc]
    rw [ih, Ptr.add_add]
    congr 2
    push_cast
    ring

theorem static_array2d_column_iterator.static_column_traverse_run (W : Nat) (hw : 0 < W) (n : Nat) :
    ∀ (fuel : Nat) (p : Ptr), n < fuel →
      static_array2d_column_iterator.traverse fuel (⟨p⟩ : static_array2d_column_iterator W)
          ⟨p.add ((n * W : Nat) : Int)⟩ =
        some ((List.range n).map (fun k => p.add ((k * W : Nat) : Int))) := by
  induction n with
  | zero =>
    intro fuel p hf
    obtain ⟨f, rfl⟩ : ∃ f, fuel = f + 1 := ⟨fuel - 1, by omega⟩
    simp [static_array2d_column_iterator.traverse, static_array2d_column_iterator.operator_ne,
      Ptr.add]
  | succ n ih =>
    intro fuel p hf
    obtain ⟨f, rfl⟩ : ∃ f, fuel = f + 1 := ⟨fuel - 1, by omega⟩
    have hpos : 0 < (n + 1) * W := Nat.mul_pos (Nat.succ_pos n) hw
    have hne : (⟨p⟩ : static_array2d_column_iterator W).operator_ne
        ⟨p.add (((n + 1) * W : Nat) : Int)⟩ = true := by
      simp only [static_array2d_column_iterator.operator_ne, decide_eq_true_eq, ne_eq]
      intro hp
      have h0 : p.add 0 = p.add (((n + 1) * W : Nat) : Int) := by rw [Ptr.add_zero]; exact hp
      have := (Ptr.add_inj p 0 _).1 h0
      omega
    have hlast : p.add (((n + 1) * W : Nat) : Int) =
        (p.add (W : Nat)).add ((n * W : Nat) : Int) := by
      rw [Ptr.add_add]; congr 1; push_cast; ring
    rw [static_array2d_column_iterator.traverse, if_pos hne]
    simp only [static_array2d_column_iterator.operator_inc]
    rw [hlast, ih f (p.add (W : Nat)) (by omega)]
    simp only [Option.map_some', List.range_succ_eq_map, List.map_cons, List.map_map]
    congr 2
    · simp [Ptr.add]
    · apply List.map_congr_left
      intro k _
      simp only [Function.comp]
      rw [Ptr.add_add]; congr 1; push_cast; ring

theorem rows_flatten (p : Ptr) (w : Nat) (h : Nat) :
    ((List.range h).map (fun y => (List.range w).map
        (fun k => p.add ((y * w + k : Nat) : Int)))).flatten =
      (List.range (h * w)).map (fun i => p.add ((i : Nat) : Int)) := by
  induction h with
  | zero => simp
  | succ h ih =>
    rw [List.range_succ, List.map_append, List.flatten_append, ih]
    have e : (h + 1) * w = h * w + w := by ring
    rw [e, List.range_add, List.map_append]
    simp [List.map_map, Function.comp]

theorem scenario_build_eq : scenario_build = some (scenario_array, scenario_heap) := by
  decide

/-! ## Memory lemmas -/

theorem Heap.block_bound {T : Type} {h : Heap T} {b : Nat} {cells : List (Option T)}
    (hb : h.block b = some cells) :
    0 < b ∧ b - 1 < h.blocks.length ∧ h.blocks[b - 1]? = some (some cells) := by
  cases b with
  | zero => simp [Heap.block] at hb
  | succ b =>
    simp only [Heap.block, Option.join_eq_some] at hb
    have hlt : b < h.blocks.length := by
      by_contra hc
      rw [List.getElem?_eq_none (by omega)] at hb
      cases hb
    exact ⟨Nat.succ_pos b, by simpa using hlt, by simpa using hb⟩

theorem Heap.block_set {T : Type} (h : Heap T) (b : Nat) (x : Option (List (Option T)))
    (cells : List (Option T)) (hb : h.block b = some cells) (b' : Nat) :
    ({ h with blocks := h.blocks.set (b - 1) x } : Heap T).block b' =
      if b' = b then x else h.block b' := by
  obtain ⟨hpos, hlt, _⟩ := Heap.block_bound hb
  cases b' with
  | zero =>
    have : ¬ (0 = b) := by omega
    simp [Heap.block, this]
  | succ b' =>
    simp only [Heap.block, List.getElem?_set]
    by_cases he : b' + 1 = b
    · subst he
      have hlt' : b' < h.blocks.length := by simpa using hlt
      simp [hlt']
    · have : ¬ (b - 1 = b') := by omega
      simp [he, this]

theorem Heap.cell_isSome {T : Type} {h : Heap T} {p : Ptr} (hp : (h.cell p).isSome) :
    ∃ cells i, h.block p.blk = some cells ∧ p.off = Int.ofNat i ∧ i < cells.length := by
  unfold Heap.cell at hp
  split at hp
  · rename_i cells i hb ho
    refine ⟨cells, i, hb, ho, ?_⟩
    by_contra hc
    rw [List.getElem?_eq_none (by omega)] at hp
    simp at hp
  · simp at hp

theorem Heap.setCell_spec {T : Type} {h h1 : Heap T} {p : Ptr} {c : Option T}
    (hs : h.setCell p c = some h1) :
    (∀ q, h1.cell q = if q = p then some c else h.cell q) ∧
      h1.frees = h.frees ∧ h1.trace = h.trace ∧ h1.blocks.length = h.blocks.length := by
  unfold Heap.setCell at hs
  split at hs
  · rename_i cells i hb ho
    split at hs
    · rename_i hi
      simp only [Option.some.injEq] at hs
      subst hs
      refine ⟨?_, rfl, rfl, by simp⟩
      intro q
      unfold Heap.cell
      rw [Heap.block_set h p.blk _ cells hb q.blk]
      by_cases hq : q = p
      · subst hq
        simp only [if_true, ho]
        simp [hi]
      · rw [if_neg hq]
        by_cases hblk : q.blk = p.blk
        · rw [if_pos hblk, hblk, hb]
          cases hqo : q.off with
          | ofNat j =>
            have hij : ¬ (i = j) := by
              intro hij
              apply hq
              cases q; cases p
              simp only [Ptr.mk.injEq]
              simp only at hblk ho hqo
              exact ⟨hblk, by rw [hqo, ho, hij]⟩
            simp [List.getElem?_set, hij]
          | negSucc j => rfl
        · rw [if_neg hblk]
    · cases hs
  · cases hs

theorem Heap.setCell_isSome {T : Type} {h : Heap T} {p : Ptr} (c : Option T)
    (hp : (h.cell p).isSome) : ∃ h1, h.setCell p c = some h1 := by
  obtain ⟨cells, i, hb, ho, hi⟩ := Heap.cell_isSome hp
  unfold Heap.setCell
  rw [hb, ho]
  simp [hi]

theorem Heap.load_isSome_cell {T : Type} {h : Heap T} {p : Ptr} (hp : (h.load p).isSome) :
    (h.cell p).isSome := by
  unfold Heap.load at hp
  cases hc : h.cell p with
  | none => rw [hc] at hp; simp at hp
  | some c => rfl

theorem Heap.load_setCell {T : Type} {h h1 : Heap T} {p : Ptr} {c : Option T}
    (hs : h.setCell p c = some h1) (q : Ptr) :
    h1.load q = if q = p then c else h.load q := by
  unfold Heap.load
  rw [(Heap.setCell_spec hs).1 q]
  by_cases hq : q = p <;> simp [hq]

theorem Heap.construct_spec {T : Type} {h h1 : Heap T} {p : Ptr} {v : T}
    (hs : h.construct p v = some h1) :
    (∀ q, h1.cell q = if q = p then some (some v) else h.cell q) ∧
      (∀ q, h1.load q = if q = p then some v else h.load q) ∧
      h1.frees = h.frees ∧ h1.trace = h.trace ++ [Event.construct p] ∧
      h1.blocks.length = h.blocks.length := by
  unfold Heap.construct at hs
  cases hc : h.setCell p (some v) with
  | none => rw [hc] at hs; cases hs
  | some h0 =>
    rw [hc] at hs
    simp only [Option.map_some', Option.some.injEq] at hs
    subst hs
    obtain ⟨h1c, h1f, h1t, h1l⟩ := Heap.setCell_spec hc
    refine ⟨fun q => h1c q, fun q => Heap.load_setCell hc q, h1f, ?_, h1l⟩
    simp [h1t]

theorem Heap.construct_isSome {T : Type} {h : Heap T} {p : Ptr} (v : T)
    (hp : (h.cell p).isSome) : ∃ h1, h.construct p v = some h1 := by
  obtain ⟨h0, hc⟩ := Heap.setCell_isSome (some v) hp
  refine ⟨{ h0 with trace := h0.trace ++ [Event.construct p] }, ?_⟩
  simp [Heap.construct, hc]

theorem Heap.destroy_spec {T : Type} {h h1 : Heap T} {p : Ptr}
    (hs : h.destroy p = some h1) :
    (∀ q, h1.cell q = if q = p then some none else h.cell q) ∧
      h1.frees = h.frees ∧ h1.trace = h.trace ++ [Event.destroy p] ∧
      h1.blocks.length = h.blocks.length := by
  unfold Heap.destroy at hs
  split at hs
  · cases hs
  · cases hc : h.setCell p none with
    | none => rw [hc] at hs; cases hs
    | some h0 =>
      rw [hc] at hs
      simp only [Option.map_some', Option.some.injEq] at hs
      subst hs
      obtain ⟨h1c, h1f, h1t, h1l⟩ := Heap.setCell_spec hc
      refine ⟨fun q => h1c q, h1f, ?_, h1l⟩
      simp [h1t]

theorem Heap.destroy_isSome {T : Type} {h : Heap T} {p : Ptr}
    (hp : (h.load p).isSome) : ∃ h1, h.destroy p = some h1 := by
  obtain ⟨h0, hc⟩ := Heap.setCell_isSome none (Heap.load_isSome_cell hp)
  obtain ⟨v, hv⟩ := Option.isSome_iff_exists.1 hp
  refine ⟨{ h0 with trace := h0.trace ++ [Event.destroy p] }, ?_⟩
  simp [Heap.destroy, hv, hc]

theorem Heap.block_alloc {T : Type} (h : Heap T) (cells : List (Option T)) (b : Nat) :
    (h.alloc cells).2.block b =
      if b = h.blocks.length + 1 then some cells else h.block b := by
  cases b with
  | zero => simp [Heap.block]
  | succ b =>
    simp only [Heap.block, Heap.alloc, Nat.add_right_cancel_iff]
    by_cases hb : b = h.blocks.length
    · subst hb
      simp
    · rw [if_neg hb]
      by_cases hlt : b < h.blocks.length
      · rw [List.getElem?_append_left hlt]
      · rw [List.getElem?_eq_none (by simp; omega), List.getElem?_eq_none (by omega)]

theorem Heap.cell_alloc_other {T : Type} (h : Heap T) (cells : List (Option T)) (q : Ptr)
    (hq : q.blk ≠ h.blocks.length + 1) : (h.alloc cells).2.cell q = h.cell q := by
  unfold Heap.cell
  rw [Heap.block_alloc, if_neg hq]

theorem Heap.cell_alloc_new {T : Type} (h : Heap T) (cells : List (Option T)) (i : Nat) :
    (h.alloc cells).2.cell ((h.alloc cells).1.add (i : Nat)) = cells[i]? := by
  unfold Heap.cell
  rw [Heap.block_alloc]
  simp [Heap.alloc, Ptr.add]

theorem Heap.cell_blk_le {T : Type} {h : Heap T} {q : Ptr} (hq : (h.cell q).isSome) :
    q.blk ≠ h.blocks.length + 1 := by
  obtain ⟨cells, i, hb, _, _⟩ := Heap.cell_isSome hq
  obtain ⟨_, hlt, _⟩ := Heap.block_bound hb
  omega

theorem uninitialized_copy_n_spec {T : Type} (n : Nat) :
    ∀ (h : Heap T) (src dst : Ptr), src.blk ≠ dst.blk →
      (∀ i : Nat, i < n → (h.load (src.add i)).isSome) →
      (∀ i : Nat, i < n → (h.cell (dst.add i)).isSome) →
      ∃ h1, uninitialized_copy_n h src n dst = some h1 ∧
        (∀ i : Nat, i < n → h1.load (dst.add i) = h.load (src.add i)) ∧
        (∀ q, (∀ i : Nat, i < n → q ≠ dst.add i) → h1.cell q = h.cell q) ∧
        h1.frees = h.frees ∧ h1.blocks.length = h.blocks.length := by
  induction n with
  | zero =>
    intro h src dst _ _ _
    exact ⟨h, rfl, by intro i hi; omega, fun _ _ => rfl, rfl, rfl⟩
  | succ n ih =>
    intro h src dst hne hsrc hdst
    have hs0 := hsrc 0 (Nat.succ_pos n)
    have hd0 := hdst 0 (Nat.succ_pos n)
    simp only [Nat.cast_zero, Ptr.add_zero] at hs0 hd0
    obtain ⟨v, hv⟩ := Option.isSome_iff_exists.1 hs0
    obtain ⟨h0, hc⟩ := Heap.construct_isSome v hd0
    obtain ⟨h0c, h0l, h0f, _, h0n⟩ := Heap.construct_spec hc
    have hsrc_ne : ∀ i : Int, src.add i ≠ dst := by
      intro i hi
      apply hne
      rw [← hi]
      rfl
    have hstep : ∀ (p : Ptr) (i : Nat), (p.add 1).add (i : Nat) = p.add ((i + 1 : Nat) : Int) := by
      intro p i
      rw [Ptr.add_add]; congr 1; push_cast; ring
    have hdst_ne : ∀ i : Nat, (dst.add 1).add (i : Nat) ≠ dst := by
      intro i hi
      rw [hstep] at hi
      have h0' : dst.add ((i + 1 : Nat) : Int) = dst.add 0 := by rw [Ptr.add_zero]; exact hi
      have := (Ptr.add_inj dst _ _).1 h0'
      omega
    obtain ⟨h1, hrun, h1l, h1c, h1f, h1n⟩ := ih h0 (src.add 1) (dst.add 1) hne
      (by
        intro i hi
        rw [h0l, if_neg (by rw [Ptr.add_add]; exact hsrc_ne _), hstep]
        exact hsrc (i + 1) (by omega))
      (by
        intro i hi
        rw [h0c, if_neg (hdst_ne i), hstep]
        exact hdst (i + 1) (by omega))
    refine ⟨h1, ?_, ?_, ?_, by rw [h1f, h0f], by rw [h1n, h0n]⟩
    · simp only [uninitialized_copy_n, hv, hc]
      exact hrun
    · intro i hi
      cases i with
      | zero =>
        simp only [Nat.cast_zero, Ptr.add_zero]
        have hq : h1.cell dst = h0.cell dst := by
          apply h1c
          intro j _ hj
          exact hdst_ne j hj.symm
        unfold Heap.load
        rw [hq, h0c, if_pos rfl]
        unfold Heap.load at hv
        rw [hv]
        rfl
      | succ i =>
        rw [← hstep, h1l i (by omega), h0l,
          if_neg (by rw [Ptr.add_add]; exact hsrc_ne _), hstep]
    · intro q hq
      rw [h1c q (by
        intro i hi
        rw [hstep]
        exact hq (i + 1) (by omega))]
      rw [h0c, if_neg (by
        have := hq 0 (Nat.succ_pos n)
        simpa [Ptr.add_zero] using this)]

theorem Heap.load_alloc_other {T : Type} (h : Heap T) (cells : List (Option T)) (q : Ptr)
    (hq : q.blk ≠ h.blocks.length + 1) : (h.alloc cells).2.load q = h.load q := by
  unfold Heap.load
  rw [Heap.cell_alloc_other h cells q hq]

theorem array2d.dynamic_index_exact (A : array2d) {x y : Nat}
    (hfit : A.m_width * A.m_height < SIZE_MOD) (hx : x < A.m_width) (hy : y < A.m_height) :
    A.index x y = A.m_data.add ((y * A.m_width + x : Nat) : Int) := by
  simp only [array2d.index]
  rw [linear_offset_exact hfit hx hy]

theorem array2d.slot_coordinates (A : array2d) {i : Nat}
    (hfit : A.m_width * A.m_height < SIZE_MOD) (hi : i < A.m_width * A.m_height) :
    ∃ x y, x < A.m_width ∧ y < A.m_height ∧ A.index x y = A.m_data.add (i : Nat) := by
  have hw : 0 < A.m_width := by
    rcases Nat.eq_zero_or_pos A.m_width with h0 | h0
    · rw [h0] at hi; simp at hi
    · exact h0
  refine ⟨i % A.m_width, i / A.m_width, Nat.mod_lt _ hw, ?_, ?_⟩
  · rw [Nat.div_lt_iff_lt_mul hw, Nat.mul_comm]; exact hi
  · rw [array2d.dynamic_index_exact A hfit (Nat.mod_lt _ hw)
      (by rw [Nat.div_lt_iff_lt_mul hw, Nat.mul_comm]; exact hi)]
    congr 2
    rw [Nat.mul_comm]
    exact Nat.div_add_mod i A.m_width

theorem live_count_append (l1 l2 : List Event) :
    live_count (l1 ++ l2) = live_count l1 + live_count l2 := by
  induction l1 with
  | nil => simp [live_count]
  | cons e es ih =>
    cases e with
    | construct p =>
      show live_count (es ++ l2) + 1 = live_count es + 1 + live_count l2
      rw [ih]; ring
    | destroy p =>
      show live_count (es ++ l2) - 1 = live_count es - 1 + live_count l2
      rw [ih]; ring

theorem emplacer.emplace_spec {T Iter : Type} (Trivial : Bool) (mk : Ptr → Iter) (h : Heap T)
    (pos : Ptr) (v : T) (hcell : (h.cell pos).isSome)
    (hlive : Trivial = false → (h.load pos).isSome) :
    ∃ h1, emplacer.emplace Trivial mk h pos v = some (mk pos, h1) ∧
      (∀ q, h1.load q = if q = pos then some v else h.load q) ∧
      h1.frees = h.frees ∧
      h1.trace = h.trace ++
        (if Trivial then [Event.construct pos] else [Event.destroy pos, Event.construct pos]) := by
  cases Trivial with
  | true =>
    obtain ⟨h1, hc⟩ := Heap.construct_isSome v hcell
    obtain ⟨_, h1l, h1f, h1t, _⟩ := Heap.construct_spec hc
    exact ⟨h1, by simp [emplacer.emplace, hc], h1l, h1f, by simp [h1t]⟩
  | false =>
    obtain ⟨h0, hd⟩ := Heap.destroy_isSome (hlive rfl)
    obtain ⟨h0c, h0f, h0t, _⟩ := Heap.destroy_spec hd
    obtain ⟨h1, hc⟩ := Heap.construct_isSome v (h := h0) (p := pos)
      (by rw [h0c, if_pos rfl]; rfl)
    obtain ⟨_, h1l, h1f, h1t, _⟩ := Heap.construct_spec hc
    refine ⟨h1, by simp [emplacer.emplace, hd, hc], ?_, by rw [h1f, h0f], by simp [h1t, h0t]⟩
    intro q
    rw [h1l]
    by_cases hq : q = pos
    · simp [hq]
    · simp only [if_neg hq]
      unfold Heap.load
      rw [h0c, if_neg hq]

theorem array2d.dynamic_emplace_pos (A : array2d) {x y : Nat}
    (hfit : A.m_width * A.m_height < SIZE_MOD) (hx : x < A.m_width) (hy : y < A.m_height) :
    (A.m_data.add (size_mul y A.m_width)).add x = A.index x y := by
  rw [array2d.dynamic_index_exact A hfit hx hy, row_offset_exact hfit hy, Ptr.add_add]
  congr 1

theorem array2d.dynamic_index_inj (A : array2d) {x y x' y' : Nat}
    (hfit : A.m_width * A.m_height < SIZE_MOD) (hx : x < A.m_width) (hy : y < A.m_height)
    (hx' : x' < A.m_width) (hy' : y' < A.m_height) (he : A.index x' y' = A.index x y) :
    (x', y') = (x, y) := by
  rw [array2d.dynamic_index_exact A hfit hx hy, array2d.dynamic_index_exact A hfit hx' hy', Ptr.add_inj] at he
  have he' : y' * A.m_width + x' = y * A.m_width + x := by exact_mod_cast he
  obtain ⟨h1, h2⟩ := linear_offset_inj hx' hx he'
  rw [h1, h2]

theorem static_array2d.static_index_exact {W H : Nat} (S : static_array2d W H) {x y : Nat}
    (hfit : W * H < SIZE_MOD) (hx : x < W) (hy : y < H) :
    S.index x y = S.m_data.add ((y * W + x : Nat) : Int) := by
  simp only [static_array2d.index]
  rw [linear_offset_exact hfit hx hy]

theorem static_array2d.static_emplace_pos {W H : Nat} (S : static_array2d W H) {x y : Nat}
    (hfit : W * H < SIZE_MOD) (hx : x < W) (hy : y < H) :
    (S.m_data.add (size_mul y W)).add x = S.index x y := by
  rw [static_array2d.static_index_exact S hfit hx hy, row_offset_exact hfit hy, Ptr.add_add]
  congr 1

theorem static_array2d.static_index_inj {W H : Nat} (S : static_array2d W H) {x y x' y' : Nat}
    (hfit : W * H < SIZE_MOD) (hx : x < W) (hy : y < H)
    (hx' : x' < W) (hy' : y' < H) (he : S.index x' y' = S.index x y) :
    (x', y') = (x, y) := by
  rw [static_array2d.static_index_exact S hfit hx hy, static_array2d.static_index_exact S hfit hx' hy',
    Ptr.add_inj] at he
  have he' : y' * W + x' = y * W + x := by exact_mod_cast he
  obtain ⟨h1, h2⟩ := linear_offset_inj hx' hx he'
  rw [h1, h2]

theorem array2d.dynamic_ctor_block_length {T : Type} (h : Heap T) (init : Option T) (w hh : Nat)
    (hfit : w * hh < SIZE_MOD) :
    ((array2d.ctor h init w hh).2.block (array2d.ctor h init w hh).1.m_data.blk).map
      List.length = some (w * hh) := by
  have hb := Heap.block_alloc h (List.replicate (size_mul w hh) init) (h.blocks.length + 1)
  rw [if_pos rfl] at hb
  simp only [array2d.ctor, Heap.new_array]
  show Option.map List.length
    ((h.alloc (List.replicate (size_mul w hh) init)).2.block (h.blocks.length + 1)) = _
  rw [hb, size_mul_exact hfit]
  simp

theorem static_array2d.static_ctor_block_length {T : Type} (W H sizeofT : Nat) (h : Heap T)
    (init : Option T) :
    ((static_array2d.ctor W H sizeofT h init).2.block
        (static_array2d.ctor W H sizeofT h init).1.m_data.blk).map List.length =
      some (static_array2d.size W H sizeofT) := by
  have hb := Heap.block_alloc h (List.replicate (static_array2d.size W H sizeofT) init)
    (h.blocks.length + 1)
  rw [if_pos rfl] at hb
  simp only [static_array2d.ctor, Heap.new_array]
  show Option.map List.length
    ((h.alloc (List.replicate (static_array2d.size W H sizeofT) init)).2.block
      (h.blocks.length + 1)) = _
  rw [hb]
  simp

/-! ## Wrapping arithmetic, comparison and copy lemmas -/

theorem SIZE_MOD_eq : SIZE_MOD = 18446744073709551616 := by
  norm_num [SIZE_MOD]

theorem to_size_cast (n : Int) : ((to_size n : Nat) : Int) = n % (SIZE_MOD : Int) := by
  unfold to_size
  apply Int.toNat_of_nonneg
  apply Int.emod_nonneg
  rw [SIZE_MOD_eq]
  norm_num

theorem column_step_cast (n : Int) (w : Nat) :
    ((size_mul (to_size n) w : Nat) : Int) = (n * (w : Int)) % (SIZE_MOD : Int) := by
  unfold size_mul
  rw [Int.natCast_mod, Nat.cast_mul, to_size_cast, Int.mul_emod, Int.emod_emod,
    ← Int.mul_emod]

theorem to_ptrdiff_emod (k : Nat) :
    to_ptrdiff k % (SIZE_MOD : Int) = (k : Int) % (SIZE_MOD : Int) := by
  unfold to_ptrdiff
  rw [SIZE_MOD_eq]
  split <;> omega

theorem to_ptrdiff_of_lt {k : Nat} (hk : k < SIZE_MOD / 2) : to_ptrdiff k = k := by
  unfold to_ptrdiff
  rw [SIZE_MOD_eq] at *
  rw [if_pos (by omega)]
  omega

theorem to_ptrdiff_step (n : Int) (w : Nat) (hlo : -(2 ^ 63 : Int) ≤ n * (w : Int))
    (hhi : n * (w : Int) < 2 ^ 63) :
    to_ptrdiff (size_mul (to_size n) w) = n * (w : Int) := by
  have hc := column_step_cast n w
  have hlt : size_mul (to_size n) w < SIZE_MOD := by
    unfold size_mul
    apply Nat.mod_lt
    rw [SIZE_MOD_eq]
    norm_num
  generalize size_mul (to_size n) w = k at hc hlt
  generalize n * (w : Int) = z at hc hlo hhi
  unfold to_ptrdiff
  rw [SIZE_MOD_eq] at *
  norm_num at hlo hhi
  split <;> omega

theorem Ptr.add_size_of_lt (p : Ptr) {k : Nat} (hk : k < SIZE_MOD / 2) :
    p.add_size k = p.add (k : Nat) := by
  unfold Ptr.add_size
  rw [to_ptrdiff_of_lt hk]

theorem Ptr.add_sub_cancel (p : Ptr) (a : Int) : (p.add a).sub a = p := by
  simp [Ptr.add, Ptr.sub]

theorem Ptr.sub_add_cancel (p : Ptr) (a : Int) : (p.sub a).add a = p := by
  simp [Ptr.add, Ptr.sub]

theorem Ptr.address_congr (base : Nat → Int) (sizeofT : Nat) (p q : Ptr)
    (hb : p.blk = q.blk) (ho : p.off % (SIZE_MOD : Int) = q.off % (SIZE_MOD : Int)) :
    Ptr.address base sizeofT p = Ptr.address base sizeofT q := by
  unfold Ptr.address
  rw [hb]
  have h1 : Int.ModEq (SIZE_MOD : Int) p.off q.off := ho
  exact (h1.mul_right _).add_left _

theorem static_array2d.ctor_cell {T : Type} (W H sizeofT : Nat) (h : Heap T) (init : Option T)
    (i : Nat) (hi : i < static_array2d.size W H sizeofT) :
    (static_array2d.ctor W H sizeofT h init).2.cell
      ((static_array2d.ctor W H sizeofT h init).1.m_data.add (i : Nat)) = some init := by
  have hc := Heap.cell_alloc_new h (List.replicate (static_array2d.size W H sizeofT) init) i
  rw [List.getElem?_replicate, if_pos hi] at hc
  exact hc

theorem static_array2d.size_ge {W H sizeofT : Nat} (hsz : 0 < sizeofT)
    (hfit : W * H * sizeofT < SIZE_MOD) :
    W * H < SIZE_MOD ∧ W * H ≤ static_array2d.size W H sizeofT := by
  have h1 : W * H * 1 ≤ W * H * sizeofT := Nat.mul_le_mul_left _ hsz
  have hfit0 : W * H < SIZE_MOD := by omega
  refine ⟨hfit0, ?_⟩
  unfold static_array2d.size
  rw [size_mul_exact hfit0, size_mul_exact hfit]
  omega

theorem std_copy_loop_spec {T : Type} (n : Nat) :
    ∀ (h : Heap T) (src dst : Ptr), src.blk ≠ dst.blk →
      (∀ i : Nat, i < n → (h.load (src.add i)).isSome) →
      (∀ i : Nat, i < n → (h.cell (dst.add i)).isSome) →
      ∃ h1, std_copy_loop h src n dst = some h1 ∧
        (∀ i : Nat, i < n → h1.load (dst.add i) = h.load (src.add i)) ∧
        (∀ q, (∀ i : Nat, i < n → q ≠ dst.add i) → h1.cell q = h.cell q) ∧
        h1.frees = h.frees ∧ h1.trace = h.trace := by
  induction n with
  | zero =>
    intro h src dst _ _ _
    exact ⟨h, rfl, by intro i hi; omega, fun _ _ => rfl, rfl, rfl⟩
  | succ n ih =>
    intro h src dst hne hsrc hdst
    have hs0 := hsrc 0 (Nat.succ_pos n)
    have hd0 := hdst 0 (Nat.succ_pos n)
    simp only [Nat.cast_zero, Ptr.add_zero] at hs0 hd0
    obtain ⟨v, hv⟩ := Option.isSome_iff_exists.1 hs0
    obtain ⟨h0, hc⟩ := Heap.setCell_isSome (some v) hd0
    obtain ⟨h0c, h0f, h0t, _⟩ := Heap.setCell_spec hc
    have h0l := Heap.load_setCell hc
    have hsrc_ne : ∀ i : Int, src.add i ≠ dst := by
      intro i hi
      apply hne
      rw [← hi]
      rfl
    have hstep : ∀ (p : Ptr) (i : Nat),
        (p.add 1).add (i : Nat) = p.add ((i + 1 : Nat) : Int) := by
      intro p i
      rw [Ptr.add_add]; congr 1; push_cast; ring
    have hdst_ne : ∀ i : Nat, (dst.add 1).add (i : Nat) ≠ dst := by
      intro i hi
      rw [hstep] at hi
      have h0' : dst.add ((i + 1 : Nat) : Int) = dst.add 0 := by rw [Ptr.add_zero]; exact hi
      have := (Ptr.add_inj dst _ _).1 h0'
      omega
    obtain ⟨h1, hrun, h1l, h1c, h1f, h1t⟩ := ih h0 (src.add 1) (dst.add 1) hne
      (by
        intro i hi
        rw [h0l, if_neg (by rw [Ptr.add_add]; exact hsrc_ne _), hstep]
        exact hsrc (i + 1) (by omega))
      (by
        intro i hi
        rw [h0c, if_neg (hdst_ne i), hstep]
        exact hdst (i + 1) (by omega))
    refine ⟨h1, ?_, ?_, ?_, by rw [h1f, h0f], by rw [h1t, h0t]⟩
    · simp only [std_copy_loop, hv, Heap.store, hc]
      exact hrun
    · intro i hi
      cases i with
      | zero =>
        simp only [Nat.cast_zero, Ptr.add_zero]
        have hq : h1.cell dst = h0.cell dst := by
          apply h1c
          intro j _ hj
          exact hdst_ne j hj.symm
        unfold Heap.load
        rw [hq, h0c, if_pos rfl]
        unfold Heap.load at hv
        rw [hv]
        rfl
      | succ i =>
        rw [← hstep, h1l i (by omega), h0l,
          if_neg (by rw [Ptr.add_add]; exact hsrc_ne _), hstep]
    · intro q hq
      rw [h1c q (by
        intro i hi
        rw [hstep]
        exact hq (i + 1) (by omega))]
      rw [h0c, if_neg (by
        have := hq 0 (Nat.succ_pos n)
        simpa [Ptr.add_zero] using this)]

theorem Ptr.not_gt_eq_le (p q : Ptr) : (!(Ptr.gt p q)) = Ptr.le p q := by
  unfold Ptr.gt Ptr.lt Ptr.le
  rw [Bool.eq_iff_iff]
  simp only [Bool.not_eq_true', decide_eq_false_iff_not, decide_eq_true_eq]
  omega

theorem Ptr.not_lt_eq_ge (p q : Ptr) : (!(Ptr.lt p q)) = Ptr.ge p q := by
  unfold Ptr.ge Ptr.lt Ptr.le
  rw [Bool.eq_iff_iff]
  simp only [Bool.not_eq_true', decide_eq_false_iff_not, decide_eq_true_eq]
  omega

theorem Ptr.le_iff_lt_or_eq (p q : Ptr) :
    Ptr.le p q = true ↔ (Ptr.lt p q = true ∨ Ptr.eq p q = true) := by
  unfold Ptr.lt Ptr.le Ptr.eq
  simp only [decide_eq_true_eq]
  constructor
  · intro h
    rcases h with h | ⟨h1, h2⟩
    · exact Or.inl (Or.inl h)
    · rcases lt_or_eq_of_le h2 with h3 | h3
      · exact Or.inl (Or.inr ⟨h1, h3⟩)
      · right
        cases p; cases q
        simp only [Ptr.mk.injEq]
        exact ⟨h1, h3⟩
  · intro h
    rcases h with (h | ⟨h1, h2⟩) | h
    · exact Or.inl h
    · exact Or.inr ⟨h1, Int.le_of_lt h2⟩
    · subst h
      exact Or.inr ⟨rfl, Int.le_refl _⟩

theorem Heap.cell_in_buffer {T : Type} (hp : Heap T) (p : Ptr) (n i : Nat)
    (hoff : p.off = 0)
    (hbuf : ∃ cells, hp.block p.blk = some cells ∧ n ≤ cells.length) (hi : i < n) :
    (hp.cell (p.add (i : Nat))).isSome = true := by
  obtain ⟨cells, hb, hn⟩ := hbuf
  have hlt : i < cells.length := by omega
  have hq : p.add (i : Nat) = ⟨p.blk, Int.ofNat i⟩ := by
    simp [Ptr.add, hoff]
  rw [hq]
  unfold Heap.cell
  simp only [hb]
  rw [List.getElem?_eq_getElem hlt]
  rfl

theorem size_mul_zero_left (w : Nat) : size_mul 0 w = 0 := by
  simp [size_mul]

theorem Heap.delete_array_null {T : Type} (trivial : Bool) (h : Heap T) (p : Ptr)
    (hp : p.blk = 0) : h.delete_array trivial p = some h := by
  simp [Heap.delete_array, hp]

theorem Heap.delete_array_raw {T : Type} (trivial : Bool) (h : Heap T) (p : Ptr)
    (hp : p.blk ≠ 0) (hraw : p.blk ∈ h.raw) : h.delete_array trivial p = none := by
  unfold Heap.delete_array
  rw [if_neg hp]
  split
  · rfl
  · rw [if_neg (fun hc => hc.2 hraw)]

theorem Heap.delete_array_releases {T : Type} (trivial : Bool) (h : Heap T) (p : Ptr)
    (cells : List (Option T)) (hoff : p.off = 0) (hb : h.block p.blk = some cells)
    (hraw : p.blk ∉ h.raw) :
    ∃ g, h.delete_array trivial p = some g ∧
      g.block p.blk = none ∧
      (∀ b, b ≠ p.blk → g.block b = h.block b) ∧
      g.frees = h.frees ++ [p.blk] ∧
      g.trace = h.trace ++
        (if trivial then []
         else ((List.range cells.length).reverse).map (fun i => Event.destroy (p.add i))) ∧
      g.raw = h.raw := by
  have hp : p.blk ≠ 0 := by
    obtain ⟨h0, _, _⟩ := Heap.block_bound hb
    omega
  have hset := Heap.block_set h p.blk none cells hb
  refine ⟨{ h with
      blocks := h.blocks.set (p.blk - 1) none
      frees := h.frees ++ [p.blk]
      trace := h.trace ++
        (if trivial then []
         else ((List.range cells.length).reverse).map
           (fun i => Event.destroy (p.add i))) }, ?_, ?_, ?_, rfl, rfl, rfl⟩
  · unfold Heap.delete_array
    rw [if_neg hp]
    simp only [hb]
    rw [if_pos ⟨hoff, hraw⟩]
  · have := hset p.blk
    rw [if_pos rfl] at this
    exact this
  · intro b hne
    have := hset b
    rw [if_neg hne] at this
    exact this

/-- Move followed by destruction, for an array `A` whose buffer `P` is a live
array of `T` (as built by `array2d(width, height)`): after move construction from `A`,
and after move assignment `B = move(A)`, destroying the moved-from `A` changes
nothing and destroying the destination releases `P`: the buffer is no longer
live, every other buffer is as before, `P` is the one buffer handed to
`delete[]`, and the destructors of its elements have run when the element type
has one. -/
theorem array2d.move_then_destroy_releases_once {T : Type} (trivial : Bool) (h : Heap T)
    (A B : array2d) (cells : List (Option T)) (hoff : A.m_data.off = 0)
    (hb : h.block A.m_data.blk = some cells) (hraw : A.m_data.blk ∉ h.raw) :
    (array2d.dtor trivial (array2d.move_ctor A).2 h = some h ∧
      ∃ g, array2d.dtor trivial (array2d.move_ctor A).1 h = some g ∧
        g.block A.m_data.blk = none ∧
        (∀ b, b ≠ A.m_data.blk → g.block b = h.block b) ∧
        g.frees = h.frees ++ [A.m_data.blk] ∧
        g.frees.count A.m_data.blk = h.frees.count A.m_data.blk + 1 ∧
        g.trace = h.trace ++
          (if trivial then []
           else ((List.range cells.length).reverse).map
             (fun i => Event.destroy (A.m_data.add i)))) ∧
    (array2d.dtor trivial (array2d.move_assign B A).2 h = some h ∧
      ∃ g, array2d.dtor trivial (array2d.move_assign B A).1 h = some g ∧
        g.block A.m_data.blk = none ∧
        (∀ b, b ≠ A.m_data.blk → g.block b = h.block b) ∧
        g.frees = h.frees ++ [A.m_data.blk] ∧
        g.frees.count A.m_data.blk = h.frees.count A.m_data.blk + 1 ∧
        g.trace = h.trace ++
          (if trivial then []
           else ((List.range cells.length).reverse).map
             (fun i => Event.destroy (A.m_data.add i)))) := by
  obtain ⟨g, hg, hgb, hgo, hgf, hgt, _⟩ :=
    Heap.delete_array_releases trivial h A.m_data cells hoff hb hraw
  have hcount : g.frees.count A.m_data.blk = h.frees.count A.m_data.blk + 1 := by
    rw [hgf]
    simp
  exact ⟨⟨Heap.delete_array_null trivial h nullptr rfl, g, hg, hgb, hgo, hgf, hcount, hgt⟩,
    ⟨Heap.delete_array_null trivial h nullptr rfl, g, hg, hgb, hgo, hgf, hcount, hgt⟩⟩

/-! ## Claims

An array holds `width * height` elements, so that count is a value of
`std::size_t`: the statements below about in-range coordinates take
`width * height < SIZE_MOD` as the standing assumption on the array. Under it no
`std::size_t` computation of the accessors wraps. -/

/-- C1: for the dynamic array and for the fixed-size array, at every in-range
coordinate `index(x, y)` and `operator()(x, y)` designate the same storage
location, and that location is the position of `begin() + (y * width + x)`.
The element count `width * height` is representable in `std::size_t`, as it is
for every array that holds its `width * height` elements. -/
theorem C1_index_call_location :
    (∀ (A : array2d) (x y : Nat), A.m_width * A.m_height < SIZE_MOD →
      x < A.m_width → y < A.m_height →
      A.index x y = A.operator_call x y ∧
      A.index x y = (A.begin.operator_plus ((y * A.width + x : Nat) : Int))._m_pos) ∧
    (∀ (W H : Nat) (S : static_array2d W H) (x y : Nat), W * H < SIZE_MOD →
      x < W → y < H →
      S.index x y = S.operator_call x y ∧
      S.index x y = (S.begin.operator_plus ((y * W + x : Nat) : Int))._m_pos) := by
  constructor
  · intro A x y hfit hx hy
    refine ⟨rfl, ?_⟩
    simp only [array2d.index, array2d.begin, array2d_iterator.operator_plus, array2d.width]
    rw [linear_offset_exact hfit hx hy]
  · intro W H S x y hfit hx hy
    refine ⟨rfl, ?_⟩
    simp only [static_array2d.index, static_array2d.begin, array2d_iterator.operator_plus]
    rw [linear_offset_exact hfit hx hy]

/-- C1 at the 3 by 2 arrays: coordinate (1, 1) is the fifth slot of the buffer
for both accessors. -/
theorem C1_index_call_location_witness :
    (scenario_array.index 1 1 = scenario_array.operator_call 1 1 ∧
      scenario_array.index 1 1 =
        (scenario_array.begin.operator_plus ((1 * scenario_array.width + 1 : Nat) : Int))._m_pos) ∧
    (scenario_static.index 1 1 = scenario_static.operator_call 1 1 ∧
      scenario_static.index 1 1 =
        (scenario_static.begin.operator_plus ((1 * 3 + 1 : Nat) : Int))._m_pos) ∧
    scenario_array.index 1 1 = ⟨1, 4⟩ :=
  ⟨C1_index_call_location.1 scenario_array 1 1 (by decide) (by decide) (by decide),
   C1_index_call_location.2 3 2 scenario_static 1 1 (by decide) (by decide) (by decide),
   by decide⟩

/-- C2: for the dynamic array and for the fixed-size array and every row
`y < height`, `row_end(y)` is reached from `row_begin(y)` by exactly `width`
pre-increments, and the loop from `row_begin(y)` to `row_end(y)` terminates and
visits exactly the `width` locations `index(0, y)`, ..., `index(width - 1, y)`
in that order. The element count
`width * height` is representable in `std::size_t`. -/
theorem C2_row_traversal :
    (∀ (A : array2d) (y fuel : Nat), A.m_width * A.m_height < SIZE_MOD →
      y < A.m_height → A.m_width < fuel →
      Nat.iterate array2d_iterator.operator_inc A.m_width (A.row_begin y) = A.row_end y ∧
      (A.row_begin y).traverse fuel (A.row_end y) =
        some ((List.range A.m_width).map (fun k => A.index k y)) ∧
      ((List.range A.m_width).map (fun k => A.index k y)).length = A.m_width) ∧
    (∀ (W H : Nat) (S : static_array2d W H) (y fuel : Nat), W * H < SIZE_MOD →
      y < H → W < fuel →
      Nat.iterate array2d_iterator.operator_inc W (S.row_begin y) = S.row_end y ∧
      (S.row_begin y).traverse fuel (S.row_end y) =
        some ((List.range W).map (fun k => S.index k y)) ∧
      ((List.range W).map (fun k => S.index k y)).length = W) := by
  constructor
  · intro A y fuel hfit hy hf
    refine ⟨?_, ?_, by simp⟩
    · simp only [array2d.row_begin, array2d.row_end]
      rw [array2d_iterator.linear_iterate_inc]
    · simp only [array2d.row_begin, array2d.row_end]
      rw [array2d_iterator.linear_traverse_run _ _ _ hf]
      congr 1
      apply List.map_congr_left
      intro k hk
      have hk' : k < A.m_width := List.mem_range.1 hk
      simp only [array2d.index]
      rw [linear_offset_exact hfit hk' hy, row_offset_exact hfit hy, Ptr.add_add]
      congr 1
  · intro W H S y fuel hfit hy hf
    refine ⟨?_, ?_, by simp⟩
    · simp only [static_array2d.row_begin, static_array2d.row_end]
      rw [array2d_iterator.linear_iterate_inc]
    · simp only [static_array2d.row_begin, static_array2d.row_end]
      rw [array2d_iterator.linear_traverse_run _ _ _ hf]
      congr 1
      apply List.map_congr_left
      intro k hk
      have hk' : k < W := List.mem_range.1 hk
      simp only [static_array2d.index]
      rw [linear_offset_exact hfit hk' hy, row_offset_exact hfit hy, Ptr.add_add]
      congr 1

/-- C2 on the 3 by 2 array filled 1..6: row 0 reads 1, 2, 3 and row 1 reads
4, 5, 6. -/
theorem C2_row_traversal_witness :
    ((scenario_array.row_begin 1).traverse 4 (scenario_array.row_end 1) =
        some ((List.range 3).map (fun k => scenario_array.index k 1))) ∧
    ((scenario_static.row_begin 1).traverse 4 (scenario_static.row_end 1) =
        some ((List.range 3).map (fun k => scenario_static.index k 1))) ∧
    ((scenario_array.row_begin 0).traverse 4 (scenario_array.row_end 0)).map
        (fun ps => ps.map scenario_heap.load) = some [some 1, some 2, some 3] ∧
    ((scenario_array.row_begin 1).traverse 4 (scenario_array.row_end 1)).map
        (fun ps => ps.map scenario_heap.load) = some [some 4, some 5, some 6] :=
  ⟨(C2_row_traversal.1 scenario_array 1 4 (by decide) (by decide) (by decide)).2.1,
   (C2_row_traversal.2 3 2 scenario_static 1 4 (by decide) (by decide) (by decide)).2.1,
   by decide, by decide⟩

/-- C3: for the dynamic array and for the fixed-size array and every column
`x < width`, the iterator obtained from `column_begin(x)` by `k` pre-increments
differs from `column_end(x)` for every `k < height` and equals it for
`k = height`; the loop from `column_begin(x)` to `column_end(x)` terminates and
visits exactly the `height` locations `index(x, 0)`, ..., `index(x, height - 1)`
in that order. The element count
`width * height` is representable in `std::size_t`. -/
theorem C3_column_traversal :
    (∀ (A : array2d) (x fuel : Nat), A.m_width * A.m_height < SIZE_MOD →
      x < A.m_width → A.m_height < fuel →
      (∀ k, k < A.m_height →
        (Nat.iterate array2d_column_iterator.operator_inc k (A.column_begin x)).operator_eq
          (A.column_end x) = false) ∧
      (Nat.iterate array2d_column_iterator.operator_inc A.m_height
          (A.column_begin x)).operator_eq (A.column_end x) = true ∧
      (A.column_begin x).traverse fuel (A.column_end x) =
        some ((List.range A.m_height).map (fun k => A.index x k)) ∧
      ((List.range A.m_height).map (fun k => A.index x k)).length = A.m_height) ∧
    (∀ (W H : Nat) (S : static_array2d W H) (x fuel : Nat), W * H < SIZE_MOD →
      x < W → H < fuel →
      (∀ k, k < H →
        (Nat.iterate static_array2d_column_iterator.operator_inc k
          (S.column_begin x)).operator_eq (S.column_end x) = false) ∧
      (Nat.iterate static_array2d_column_iterator.operator_inc H
          (S.column_begin x)).operator_eq (S.column_end x) = true ∧
      (S.column_begin x).traverse fuel (S.column_end x) =
        some ((List.range H).map (fun k => S.index x k)) ∧
      ((List.range H).map (fun k => S.index x k)).length = H) := by
  constructor
  · intro A x fuel hfit hx hf
    have hw : 0 < A.m_width := by omega
    have hhw : size_mul A.m_height A.m_width = A.m_height * A.m_width :=
      size_mul_exact (by rw [Nat.mul_comm]; exact hfit)
    have hend : A.column_end x =
        ⟨(A.m_data.add x).add ((A.m_height * A.m_width : Nat) : Int), A.m_width⟩ := by
      simp only [array2d.column_end]
      rw [hhw, Ptr.add_add, Ptr.add_add, add_comm]
    refine ⟨?_, ?_, ?_, by simp⟩
    · intro k hk
      simp only [array2d.column_begin]
      rw [array2d_column_iterator.column_iterate_inc, hend]
      simp only [array2d_column_iterator.operator_eq, decide_eq_false_iff_not, Ptr.add_inj]
      intro he
      have he' : k * A.m_width = A.m_height * A.m_width := by exact_mod_cast he
      have := Nat.eq_of_mul_eq_mul_right hw he'
      omega
    · simp only [array2d.column_begin]
      rw [array2d_column_iterator.column_iterate_inc, hend]
      simp [array2d_column_iterator.operator_eq]
    · rw [hend]
      simp only [array2d.column_begin]
      rw [array2d_column_iterator.column_traverse_run _ _ hw _ _ _ hf]
      congr 1
      apply List.map_congr_left
      intro k hk
      have hk' : k < A.m_height := List.mem_range.1 hk
      simp only [array2d.index]
      rw [linear_offset_exact hfit hx hk', Ptr.add_add]
      congr 1
      push_cast
      ring
  · intro W H S x fuel hfit hx hf
    have hw : 0 < W := by omega
    have hhw : size_mul H W = H * W := size_mul_exact (by rw [Nat.mul_comm]; exact hfit)
    have hend : S.column_end x = ⟨(S.m_data.add x).add ((H * W : Nat) : Int)⟩ := by
      simp only [static_array2d.column_end]
      rw [hhw, Ptr.add_add, Ptr.add_add, add_comm]
    refine ⟨?_, ?_, ?_, by simp⟩
    · intro k hk
      simp only [static_array2d.column_begin]
      rw [static_array2d_column_iterator.static_column_iterate_inc, hend]
      simp only [static_array2d_column_iterator.operator_eq, decide_eq_false_iff_not,
        Ptr.add_inj]
      intro he
      have he' : k * W = H * W := by exact_mod_cast he
      have := Nat.eq_of_mul_eq_mul_right hw he'
      omega
    · simp only [static_array2d.column_begin]
      rw [static_array2d_column_iterator.static_column_iterate_inc, hend]
      simp [static_array2d_column_iterator.operator_eq]
    · rw [hend]
      simp only [static_array2d.column_begin]
      rw [static_array2d_column_iterator.static_column_traverse_run _ hw _ _ _ hf]
      congr 1
      apply List.map_congr_left
      intro k hk
      have hk' : k < H := List.mem_range.1 hk
      simp only [static_array2d.index]
      rw [linear_offset_exact hfit hx hk', Ptr.add_add]
      congr 1
      push_cast
      ring

/-- C3 on the 3 by 2 array filled 1..6: column 1 reads 2, 5; the end of the
column is met after two increments and not after one. -/
theorem C3_column_traversal_witness :
    ((scenario_array.column_begin 1).traverse 3 (scenario_array.column_end 1) =
        some ((List.range 2).map (fun k => scenario_array.index 1 k))) ∧
    ((scenario_static.column_begin 1).traverse 3 (scenario_static.column_end 1) =
        some ((List.range 2).map (fun k => scenario_static.index 1 k))) ∧
    ((scenario_array.column_begin 1).traverse 3 (scenario_array.column_end 1)).map
        (fun ps => ps.map scenario_heap.load) = some [some 2, some 5] ∧
    (scenario_array.column_begin 1).operator_inc.operator_eq (scenario_array.column_end 1)
        = false ∧
    (scenario_array.column_begin 1).operator_inc.operator_inc.operator_eq
        (scenario_array.column_end 1) = true :=
  ⟨(C3_column_traversal.1 scenario_array 1 3 (by decide) (by decide) (by decide)).2.2.1,
   (C3_column_traversal.2 3 2 scenario_static 1 3 (by decide) (by decide) (by decide)).2.2.1,
   by decide, by decide, by decide⟩

/-- C4, the code at a failing input: `B` is a 1 by 1 array holding 0 and `A` the
3 by 2 array filled 1..6. The assignment `B = A` returns with `B` of width 3 and
height 2 in a fresh six-slot buffer, of which only the first slot was
copy-constructed: `std::uninitialized_copy_n` ran with the count
`m_width * m_height = 1` of `B` before its members were updated. `B.index(1, 0)`
holds no element while `A.index(1, 0)` is 2. When `B` was the larger array
(3 by 3) the copy runs past the end of `A`'s buffer. -/
theorem C4_copy_assign_copies_old_count :
    array2d.copy_assign 4 scenario_heap_pair scenario_small scenario_array =
      some (⟨3, 2, ⟨3, 0⟩⟩,
        ⟨[some [some 1, some 2, some 3, some 4, some 5, some 6], some [some 0],
          some [some 1, none, none, none, none, none]], [], [Event.construct ⟨3, 0⟩], [3]⟩) ∧
    (array2d.copy_assign 4 scenario_heap_pair scenario_small scenario_array).map
        (fun r => (r.1.width, r.1.height, r.2.load (r.1.index 0 0), r.2.load (r.1.index 1 0))) =
      some (3, 2, some 1, none) ∧
    scenario_heap_pair.load (scenario_array.index 0 0) = some 1 ∧
    scenario_heap_pair.load (scenario_array.index 1 0) = some 2 ∧
    array2d.copy_assign 4 scenario_heap_large scenario_large scenario_array = none := by
  refine ⟨by decide, by decide, by decide, by decide, by decide⟩

/-- C5: copy construction `array2d B(A)` from a populated array `A` returns;
`B` has `A`'s width and height and reads `A`'s value at every in-range
coordinate; `A` still reads the same values; `B`'s buffer is not `A`'s, and
assigning through `B.index(x, y)` afterwards leaves every element of `A` as it
was. The byte count
`width * height * sizeof(T)` of the copy is representable in `std::size_t`. -/
theorem C5_copy_construct {T : Type} (sizeofT : Nat) (h : Heap T) (A : array2d)
    (hsz : 0 < sizeofT) (hfit : A.m_width * A.m_height * sizeofT < SIZE_MOD)
    (hlive : (h.block A.m_data.blk).isSome)
    (hpop : ∀ x, x < A.m_width → ∀ y, y < A.m_height → (h.load (A.index x y)).isSome) :
    ∃ B h1, array2d.copy_ctor sizeofT h A = some (B, h1) ∧
      B.width = A.width ∧ B.height = A.height ∧
      (∀ x y, x < A.m_width → y < A.m_height →
        h1.load (B.index x y) = h.load (A.index x y) ∧
        h1.load (A.index x y) = h.load (A.index x y)) ∧
      B.m_data.blk ≠ A.m_data.blk ∧
      (∀ x y (v : T), x < A.m_width → y < A.m_height →
        ∃ h2, h1.store (B.index x y) v = some h2 ∧
          h2.load (B.index x y) = some v ∧
          ∀ x' y', x' < A.m_width → y' < A.m_height →
            h2.load (A.index x' y') = h.load (A.index x' y')) := by
  have hfit0 : A.m_width * A.m_height < SIZE_MOD := by
    have : A.m_width * A.m_height * 1 ≤ A.m_width * A.m_height * sizeofT :=
      Nat.mul_le_mul_left _ hsz
    omega
  have hn : size_mul A.m_width A.m_height = A.m_width * A.m_height := size_mul_exact hfit0
  have hbytes : size_mul (size_mul A.m_width A.m_height) sizeofT / sizeofT =
      A.m_width * A.m_height := by
    rw [hn, size_mul_exact hfit, Nat.mul_div_cancel _ hsz]
  obtain ⟨cellsA, hcA⟩ := Option.isSome_iff_exists.1 hlive
  obtain ⟨_, hAlt, _⟩ := Heap.block_bound hcA
  have hAne : A.m_data.blk ≠ h.blocks.length + 1 := by omega
  have hsrc : ∀ i : Nat, i < A.m_width * A.m_height →
      ((h.alloc (List.replicate (A.m_width * A.m_height) (none : Option T))).2.load
        (A.m_data.add i)).isSome := by
    intro i hi
    rw [Heap.load_alloc_other _ _ _ (by simpa [Ptr.add] using hAne)]
    obtain ⟨x, y, hx, hy, hxy⟩ := array2d.slot_coordinates A hfit0 hi
    rw [← hxy]
    exact hpop x hx y hy
  have hdst : ∀ i : Nat, i < A.m_width * A.m_height →
      ((h.alloc (List.replicate (A.m_width * A.m_height) (none : Option T))).2.cell
        ((h.alloc (List.replicate (A.m_width * A.m_height) (none : Option T))).1.add i)).isSome := by
    intro i hi
    rw [Heap.cell_alloc_new, List.getElem?_replicate, if_pos hi]
    rfl
  have hraw : ∀ b : Nat, (h.new_raw sizeofT (b * sizeofT)).1 =
        (h.alloc (List.replicate b (none : Option T))).1 ∧
      (∀ q, (h.new_raw sizeofT (b * sizeofT)).2.cell q =
        (h.alloc (List.replicate b (none : Option T))).2.cell q) := by
    intro b
    unfold Heap.new_raw
    rw [Nat.mul_div_cancel _ hsz]
    exact ⟨rfl, fun _ => rfl⟩
  obtain ⟨hraw1, hrawc⟩ := hraw (A.m_width * A.m_height)
  have hrawl : ∀ q, (h.new_raw sizeofT (A.m_width * A.m_height * sizeofT)).2.load q =
      (h.alloc (List.replicate (A.m_width * A.m_height) (none : Option T))).2.load q := by
    intro q
    unfold Heap.load
    rw [hrawc]
  obtain ⟨h1, hrun, h1l, h1c, h1f, h1n⟩ := uninitialized_copy_n_spec (A.m_width * A.m_height)
    (h.new_raw sizeofT (A.m_width * A.m_height * sizeofT)).2 A.m_data
    (h.new_raw sizeofT (A.m_width * A.m_height * sizeofT)).1
    (by rw [hraw1]; simpa [Heap.alloc] using hAne)
    (by intro i hi; rw [hrawl]; exact hsrc i hi)
    (by intro i hi; rw [hrawc, hraw1]; exact hdst i hi)
  simp only [hrawl, hrawc, hraw1] at hrun h1l h1c
  have hBfit : ∀ x y, x < A.m_width → y < A.m_height →
      (array2d.mk A.m_width A.m_height
        (h.alloc (List.replicate (A.m_width * A.m_height) (none : Option T))).1).index x y =
      (h.alloc (List.replicate (A.m_width * A.m_height) (none : Option T))).1.add
        ((y * A.m_width + x : Nat) : Int) := by
    intro x y hx hy
    exact array2d.dynamic_index_exact ⟨A.m_width, A.m_height, _⟩ hfit0 hx hy
  have hAframe : ∀ x y, h1.cell (A.index x y) = h.cell (A.index x y) := by
    intro x y
    rw [h1c _ (by
      intro i _ hq
      apply hAne
      have := congrArg Ptr.blk hq
      simpa [array2d.index, Ptr.add, Heap.alloc] using this)]
    exact Heap.cell_alloc_other _ _ _ (by simpa [array2d.index, Ptr.add] using hAne)
  have hAload : ∀ x y, h1.load (A.index x y) = h.load (A.index x y) := by
    intro x y
    unfold Heap.load
    rw [hAframe]
  have hBload : ∀ x y, x < A.m_width → y < A.m_height →
      h1.load ((array2d.mk A.m_width A.m_height
        (h.alloc (List.replicate (A.m_width * A.m_height) (none : Option T))).1).index x y) =
      h.load (A.index x y) := by
    intro x y hx hy
    rw [hBfit x y hx hy, h1l _ (linear_offset_lt hx hy),
      Heap.load_alloc_other _ _ _ (by simpa [Ptr.add] using hAne),
      array2d.dynamic_index_exact A hfit0 hx hy]
  refine ⟨⟨A.m_width, A.m_height,
    (h.alloc (List.replicate (A.m_width * A.m_height) (none : Option T))).1⟩, h1, ?_, rfl, rfl,
    ?_, ?_, ?_⟩
  · have hb : size_mul (A.m_width * A.m_height) sizeofT =
        A.m_width * A.m_height * sizeofT := size_mul_exact hfit
    simp only [array2d.copy_ctor, hn, hb, hraw1, hrun, Option.map_some']
  · intro x y hx hy
    exact ⟨hBload x y hx hy, hAload x y⟩
  · simp only [Heap.alloc]
    omega
  · intro x y v hx hy
    have hsome : (h1.cell ((array2d.mk A.m_width A.m_height
        (h.alloc (List.replicate (A.m_width * A.m_height) (none : Option T))).1).index x y)).isSome := by
      apply Heap.load_isSome_cell
      rw [hBload x y hx hy]
      exact hpop x hx y hy
    obtain ⟨h2, hst⟩ := Heap.setCell_isSome (some v) hsome
    refine ⟨h2, hst, ?_, ?_⟩
    · rw [Heap.load_setCell hst, if_pos rfl]
    · intro x' y' _ _
      rw [Heap.load_setCell hst, if_neg, hAload]
      intro hq
      apply hAne
      have := congrArg Ptr.blk hq
      simpa [array2d.index, Ptr.add, Heap.alloc] using this

/-- C5 on the 3 by 2 array filled 1..6, an `int` taking 4 bytes: the copy owns
the second buffer and reads the same six values. -/
theorem C5_copy_construct_witness :
    ∃ B h1, array2d.copy_ctor 4 scenario_heap scenario_array = some (B, h1) ∧
      B.width = scenario_array.width ∧ B.height = scenario_array.height ∧
      (∀ x y, x < scenario_array.m_width → y < scenario_array.m_height →
        h1.load (B.index x y) = scenario_heap.load (scenario_array.index x y) ∧
        h1.load (scenario_array.index x y) = scenario_heap.load (scenario_array.index x y)) ∧
      B.m_data.blk ≠ scenario_array.m_data.blk ∧
      (∀ x y (v : Int), x < scenario_array.m_width → y < scenario_array.m_height →
        ∃ h2, h1.store (B.index x y) v = some h2 ∧
          h2.load (B.index x y) = some v ∧
          ∀ x' y', x' < scenario_array.m_width → y' < scenario_array.m_height →
            h2.load (scenario_array.index x' y') =
              scenario_heap.load (scenario_array.index x' y')) :=
  C5_copy_construct 4 scenario_heap scenario_array (by decide) (by decide) (by decide)
    (by decide)

/-- C6: for the dynamic array and for the fixed-size array, `emplace(x, y, v)`
at an in-range coordinate whose slot lies in the live buffer (and holds a live
element when the element type is not trivially destructible) returns; afterwards
`index(x, y)` reads `v`, every other in-range coordinate reads what it read
before, and the array object, hence its width and height, is unchanged. The element count
`width * height` is representable in `std::size_t`. -/
theorem C6_emplace_frame {T : Type} :
    (∀ (Trivial : Bool) (A : array2d) (h : Heap T) (x y : Nat) (v : T),
      A.m_width * A.m_height < SIZE_MOD → x < A.m_width → y < A.m_height →
      (h.cell (A.index x y)).isSome →
      (Trivial = false → (h.load (A.index x y)).isSome) →
      ∃ it A1 h1, A.emplace Trivial h x y v = some (it, A1, h1) ∧
        h1.load (A1.index x y) = some v ∧
        (∀ x' y', x' < A.m_width → y' < A.m_height → (x', y') ≠ (x, y) →
          h1.load (A1.index x' y') = h.load (A.index x' y')) ∧
        A1.width = A.width ∧ A1.height = A.height) ∧
    (∀ (Trivial : Bool) (W H : Nat) (S : static_array2d W H) (h : Heap T) (x y : Nat) (v : T),
      W * H < SIZE_MOD → x < W → y < H →
      (h.cell (S.index x y)).isSome →
      (Trivial = false → (h.load (S.index x y)).isSome) →
      ∃ it S1 h1, S.emplace Trivial h x y v = some (it, S1, h1) ∧
        h1.load (S1.index x y) = some v ∧
        (∀ x' y', x' < W → y' < H → (x', y') ≠ (x, y) →
          h1.load (S1.index x' y') = h.load (S.index x' y')) ∧
        S1 = S) := by
  constructor
  · intro Trivial A h x y v hfit hx hy hcell hlive
    obtain ⟨h1, hrun, h1l, _, _⟩ :=
      emplacer.emplace_spec Trivial array2d_iterator.mk h (A.index x y) v hcell hlive
    refine ⟨⟨A.index x y⟩, A, h1, ?_, ?_, ?_, rfl, rfl⟩
    · simp only [array2d.emplace]
      rw [array2d.dynamic_emplace_pos A hfit hx hy, hrun]
      rfl
    · rw [h1l, if_pos rfl]
    · intro x' y' hx' hy' hne
      rw [h1l, if_neg]
      intro he
      exact hne (array2d.dynamic_index_inj A hfit hx hy hx' hy' he)
  · intro Trivial W H S h x y v hfit hx hy hcell hlive
    obtain ⟨h1, hrun, h1l, _, _⟩ :=
      emplacer.emplace_spec Trivial array2d_iterator.mk h (S.index x y) v hcell hlive
    refine ⟨⟨S.index x y⟩, S, h1, ?_, ?_, ?_, rfl⟩
    · simp only [static_array2d.emplace]
      rw [static_array2d.static_emplace_pos S hfit hx hy, hrun]
      rfl
    · rw [h1l, if_pos rfl]
    · intro x' y' hx' hy' hne
      rw [h1l, if_neg]
      intro he
      exact hne (static_array2d.static_index_inj S hfit hx hy hx' hy' he)

/-- C6 on a 2 by 2 fixed-size array of `int` holding 0 everywhere:
`emplace(1, 1, 9)` changes exactly coordinate (1, 1); likewise on the 3 by 2
dynamic array. -/
theorem C6_emplace_frame_witness :
    (∃ it S1 h1, scenario_square.emplace true scenario_square_heap 1 1 9 = some (it, S1, h1) ∧
        h1.load (S1.index 1 1) = some 9 ∧
        (∀ x' y', x' < 2 → y' < 2 → (x', y') ≠ (1, 1) →
          h1.load (S1.index x' y') = scenario_square_heap.load (scenario_square.index x' y')) ∧
        S1 = scenario_square) ∧
    (∃ it A1 h1, scenario_array.emplace false scenario_heap 1 1 9 = some (it, A1, h1) ∧
        h1.load (A1.index 1 1) = some 9 ∧
        (∀ x' y', x' < scenario_array.m_width → y' < scenario_array.m_height →
          (x', y') ≠ (1, 1) →
          h1.load (A1.index x' y') = scenario_heap.load (scenario_array.index x' y')) ∧
        A1.width = scenario_array.width ∧ A1.height = scenario_array.height) ∧
    (scenario_square.emplace true scenario_square_heap 1 1 9).map
        (fun r => [r.2.2.load (r.2.1.index 0 0), r.2.2.load (r.2.1.index 1 0),
          r.2.2.load (r.2.1.index 0 1), r.2.2.load (r.2.1.index 1 1)]) =
      some [some 0, some 0, some 0, some 9] :=
  ⟨C6_emplace_frame.2 true 2 2 scenario_square scenario_square_heap 1 1 9
      (by decide) (by decide) (by decide) (by decide) (by decide),
   C6_emplace_frame.1 false scenario_array scenario_heap 1 1 9
      (by decide) (by decide) (by decide) (by decide) (by decide),
   by decide⟩

/-- C7, the code at a failing input: `A` is the copy `array2d A(A0)` of the 3 by
2 array filled 1..6, so its buffer `P` (buffer 2) is storage obtained from
`new char[]`. Move construction from `A`, and move assignment of `A` onto the
array owning buffer 1, leave the destination with `P`, width 3 and height 2 and
`A` with a null pointer, and destroying the moved-from `A` changes nothing; but
destroying the destination runs `delete[]` on storage that is no array of `T`,
which is undefined, so `P` is not released once. For the array `A0` itself,
whose buffer came from `new T[6]`, the same moves followed by the two
destructors release buffer 1: it is no longer live, it is the one buffer handed
to `delete[]`, and the six element destructors have run. -/
theorem C7_destroying_moved_copy_undefined :
    array2d.copy_ctor 4 scenario_heap scenario_array =
      some (scenario_copied, scenario_heap_copied) ∧
    scenario_heap_copied.raw = [2] ∧
    array2d.move_ctor scenario_copied = (⟨3, 2, ⟨2, 0⟩⟩, ⟨3, 2, nullptr⟩) ∧
    array2d.move_assign scenario_array scenario_copied = (⟨3, 2, ⟨2, 0⟩⟩, ⟨3, 2, nullptr⟩) ∧
    array2d.dtor false (array2d.move_ctor scenario_copied).2 scenario_heap_copied =
      some scenario_heap_copied ∧
    array2d.dtor false (array2d.move_ctor scenario_copied).1 scenario_heap_copied = none ∧
    array2d.dtor false (array2d.move_assign scenario_array scenario_copied).2
      scenario_heap_copied = some scenario_heap_copied ∧
    array2d.dtor false (array2d.move_assign scenario_array scenario_copied).1
      scenario_heap_copied = none ∧
    ((array2d.dtor false (array2d.move_ctor scenario_array).2 scenario_heap_copied).bind
      (array2d.dtor false (array2d.move_ctor scenario_array).1)).map
        (fun g => g.block 1) = some none ∧
    ((array2d.dtor false (array2d.move_ctor scenario_array).2 scenario_heap_copied).bind
      (array2d.dtor false (array2d.move_ctor scenario_array).1)).map
        (fun g => (g.block 2).isSome) = some true ∧
    ((array2d.dtor false (array2d.move_ctor scenario_array).2 scenario_heap_copied).bind
      (array2d.dtor false (array2d.move_ctor scenario_array).1)).map
        (fun g => g.frees) = some [1] ∧
    ((array2d.dtor false (array2d.move_ctor scenario_array).2 scenario_heap_copied).bind
      (array2d.dtor false (array2d.move_ctor scenario_array).1)).map
        (fun g => g.trace.drop scenario_heap_copied.trace.length) =
      some [Event.destroy ⟨1, 5⟩, Event.destroy ⟨1, 4⟩, Event.destroy ⟨1, 3⟩,
        Event.destroy ⟨1, 2⟩, Event.destroy ⟨1, 1⟩, Event.destroy ⟨1, 0⟩] := by
  refine ⟨by decide, by decide, by decide, by decide, by decide, by decide, by decide,
    by decide, by decide, by decide, by decide, by decide⟩

/-- C8, the code at a failing input: for `static_array2d<int, 2, 2>`, an `int`
taking 4 bytes, the constant `size` is `2 * 2 * 4 = 16` and the member array
`T m_data[size]` has 16 elements, not `Width * Height = 4`; `end()` is 4
elements after `begin()`. The dynamic array built by `array2d<int>(2, 2)` and
its copy own 4 elements each. -/
theorem C8_static_buffer_counts_bytes :
    static_array2d.size 2 2 4 = 16 ∧
    ((static_array2d.ctor 2 2 4 (Heap.empty : Heap Int) none).2.block
        (static_array2d.ctor 2 2 4 (Heap.empty : Heap Int) none).1.m_data.blk).map
      List.length = some 16 ∧
    (16 : Nat) ≠ 2 * 2 ∧
    Nat.iterate array2d_iterator.operator_inc 4
      (static_array2d.ctor 2 2 4 (Heap.empty : Heap Int) none).1.begin =
      (static_array2d.ctor 2 2 4 (Heap.empty : Heap Int) none).1.end ∧
    ((array2d.ctor (Heap.empty : Heap Int) none 2 2).2.block
        (array2d.ctor (Heap.empty : Heap Int) none 2 2).1.m_data.blk).map
      List.length = some (2 * 2) := by
  refine ⟨by decide, by decide, by decide, by decide, by decide⟩

/-- C9: for the dynamic array and for the fixed-size array, `end()` is reached
from `begin()` by exactly `width * height` pre-increments, and the loop from
`begin()` to `end()` terminates and visits the concatenation, for
`y = 0, ..., height - 1` in that order, of what the loops from `row_begin(y)` to
`row_end(y)` visit. The element count
`width * height` is representable in `std::size_t`. -/
theorem C9_full_traversal :
    (∀ (A : array2d) (fuel : Nat), A.m_width * A.m_height < SIZE_MOD →
      A.m_width * A.m_height < fuel →
      Nat.iterate array2d_iterator.operator_inc (A.m_width * A.m_height) A.begin = A.end ∧
      ∃ rows : List (List Ptr), rows.length = A.m_height ∧
        (∀ y, y < A.m_height →
          (A.row_begin y).traverse fuel (A.row_end y) = rows[y]?) ∧
        A.begin.traverse fuel A.end = some rows.flatten) ∧
    (∀ (W H : Nat) (S : static_array2d W H) (fuel : Nat), W * H < SIZE_MOD →
      W * H < fuel →
      Nat.iterate array2d_iterator.operator_inc (W * H) S.begin = S.end ∧
      ∃ rows : List (List Ptr), rows.length = H ∧
        (∀ y, y < H → (S.row_begin y).traverse fuel (S.row_end y) = rows[y]?) ∧
        S.begin.traverse fuel S.end = some rows.flatten) := by
  constructor
  · intro A fuel hfit hf
    refine ⟨?_, ?_⟩
    · simp only [array2d.begin, array2d.end]
      rw [array2d_iterator.linear_iterate_inc, size_mul_exact hfit]
    · refine ⟨(List.range A.m_height).map (fun y => (List.range A.m_width).map
        (fun k => A.m_data.add ((y * A.m_width + k : Nat) : Int))), by simp, ?_, ?_⟩
      · intro y hy
        have hwf : A.m_width < fuel := by
          have : A.m_width * 1 ≤ A.m_width * A.m_height := Nat.mul_le_mul_left _ (by omega)
          omega
        simp only [array2d.row_begin, array2d.row_end]
        rw [array2d_iterator.linear_traverse_run _ _ _ hwf, row_offset_exact hfit hy]
        rw [List.getElem?_map, List.getElem?_range hy]
        simp only [Option.map_some', Option.some.injEq]
        apply List.map_congr_left
        intro k _
        rw [Ptr.add_add]; congr 1
      · simp only [array2d.begin, array2d.end]
        rw [size_mul_exact hfit, array2d_iterator.linear_traverse_run _ _ _ hf, rows_flatten,
          Nat.mul_comm]
  · intro W H S fuel hfit hf
    refine ⟨?_, ?_⟩
    · simp only [static_array2d.begin, static_array2d.end]
      rw [array2d_iterator.linear_iterate_inc, size_mul_exact hfit]
    · refine ⟨(List.range H).map (fun y => (List.range W).map
        (fun k => S.m_data.add ((y * W + k : Nat) : Int))), by simp, ?_, ?_⟩
      · intro y hy
        have hwf : W < fuel := by
          have : W * 1 ≤ W * H := Nat.mul_le_mul_left _ (by omega)
          omega
        simp only [static_array2d.row_begin, static_array2d.row_end]
        rw [array2d_iterator.linear_traverse_run _ _ _ hwf, row_offset_exact hfit hy]
        rw [List.getElem?_map, List.getElem?_range hy]
        simp only [Option.map_some', Option.some.injEq]
        apply List.map_congr_left
        intro k _
        rw [Ptr.add_add]; congr 1
      · simp only [static_array2d.begin, static_array2d.end]
        rw [size_mul_exact hfit, array2d_iterator.linear_traverse_run _ _ _ hf, rows_flatten,
          Nat.mul_comm]

/-- C9 on the 3 by 2 array filled 1..6: `end()` is six increments after
`begin()` and the full traversal reads 1, 2, 3, 4, 5, 6, the two rows one after
the other. -/
theorem C9_full_traversal_witness :
    (Nat.iterate array2d_iterator.operator_inc
        (scenario_array.m_width * scenario_array.m_height) scenario_array.begin =
      scenario_array.end ∧
      ∃ rows : List (List Ptr), rows.length = scenario_array.m_height ∧
        (∀ y, y < scenario_array.m_height →
          (scenario_array.row_begin y).traverse 7 (scenario_array.row_end y) = rows[y]?) ∧
        scenario_array.begin.traverse 7 scenario_array.end = some rows.flatten) ∧
    (Nat.iterate array2d_iterator.operator_inc (3 * 2) scenario_static.begin =
      scenario_static.end ∧
      ∃ rows : List (List Ptr), rows.length = 2 ∧
        (∀ y, y < 2 →
          (scenario_static.row_begin y).traverse 7 (scenario_static.row_end y) = rows[y]?) ∧
        scenario_static.begin.traverse 7 scenario_static.end = some rows.flatten) ∧
    (scenario_array.begin.traverse 7 scenario_array.end).map
        (fun ps => ps.map scenario_heap.load) =
      some [some 1, some 2, some 3, some 4, some 5, some 6] :=
  ⟨C9_full_traversal.1 scenario_array 7 (by decide) (by decide),
   C9_full_traversal.2 3 2 scenario_static 7 (by decide) (by decide),
   by decide⟩

/-- C10: for the dynamic array and for the fixed-size array, at an in-range
coordinate holding a live element, `emplace` for an element type that is not
trivially destructible returns having run exactly one destructor and then one
constructor, both on the slot of `index(x, y)`, so the live-instance count is
what it was; `emplace` for a trivially destructible element type returns having
run one constructor on that slot and no destructor. The element count
`width * height` is representable in `std::size_t`. -/
theorem C10_emplace_lifetime {T : Type} :
    (∀ (A : array2d) (h : Heap T) (x y : Nat) (v : T),
      A.m_width * A.m_height < SIZE_MOD → x < A.m_width → y < A.m_height →
      (h.load (A.index x y)).isSome →
      (∃ it A1 h1, A.emplace false h x y v = some (it, A1, h1) ∧
        h1.trace = h.trace ++ [Event.destroy (A.index x y), Event.construct (A.index x y)] ∧
        live_count h1.trace = live_count h.trace) ∧
      (∃ it A1 h1, A.emplace true h x y v = some (it, A1, h1) ∧
        h1.trace = h.trace ++ [Event.construct (A.index x y)])) ∧
    (∀ (W H : Nat) (S : static_array2d W H) (h : Heap T) (x y : Nat) (v : T),
      W * H < SIZE_MOD → x < W → y < H →
      (h.load (S.index x y)).isSome →
      (∃ it S1 h1, S.emplace false h x y v = some (it, S1, h1) ∧
        h1.trace = h.trace ++ [Event.destroy (S.index x y), Event.construct (S.index x y)] ∧
        live_count h1.trace = live_count h.trace) ∧
      (∃ it S1 h1, S.emplace true h x y v = some (it, S1, h1) ∧
        h1.trace = h.trace ++ [Event.construct (S.index x y)])) := by
  have hcount : ∀ (l : List Event) (p : Ptr),
      live_count (l ++ [Event.destroy p, Event.construct p]) = live_count l := by
    intro l p
    rw [live_count_append]
    simp [live_count]
  constructor
  · intro A h x y v hfit hx hy hlive
    constructor
    · obtain ⟨h1, hrun, _, _, h1t⟩ := emplacer.emplace_spec false array2d_iterator.mk h
        (A.index x y) v (Heap.load_isSome_cell hlive) (fun _ => hlive)
      refine ⟨⟨A.index x y⟩, A, h1, ?_, by simpa using h1t, ?_⟩
      · simp only [array2d.emplace]
        rw [array2d.dynamic_emplace_pos A hfit hx hy, hrun]
        rfl
      · rw [h1t]
        simpa using hcount h.trace (A.index x y)
    · obtain ⟨h1, hrun, _, _, h1t⟩ := emplacer.emplace_spec true array2d_iterator.mk h
        (A.index x y) v (Heap.load_isSome_cell hlive) (fun hc => by cases hc)
      refine ⟨⟨A.index x y⟩, A, h1, ?_, by simpa using h1t⟩
      simp only [array2d.emplace]
      rw [array2d.dynamic_emplace_pos A hfit hx hy, hrun]
      rfl
  · intro W H S h x y v hfit hx hy hlive
    constructor
    · obtain ⟨h1, hrun, _, _, h1t⟩ := emplacer.emplace_spec false array2d_iterator.mk h
        (S.index x y) v (Heap.load_isSome_cell hlive) (fun _ => hlive)
      refine ⟨⟨S.index x y⟩, S, h1, ?_, by simpa using h1t, ?_⟩
      · simp only [static_array2d.emplace]
        rw [static_array2d.static_emplace_pos S hfit hx hy, hrun]
        rfl
      · rw [h1t]
        simpa using hcount h.trace (S.index x y)
    · obtain ⟨h1, hrun, _, _, h1t⟩ := emplacer.emplace_spec true array2d_iterator.mk h
        (S.index x y) v (Heap.load_isSome_cell hlive) (fun hc => by cases hc)
      refine ⟨⟨S.index x y⟩, S, h1, ?_, by simpa using h1t⟩
      simp only [static_array2d.emplace]
      rw [static_array2d.static_emplace_pos S hfit hx hy, hrun]
      rfl

/-- C10 on the 3 by 2 array filled 1..6 and on the 2 by 2 fixed-size array:
`emplace(1, 1, 9)` runs destructor then constructor on slot 4 under the
non-trivial policy, and the constructor alone under the trivial policy. -/
theorem C10_emplace_lifetime_witness :
    ((∃ it A1 h1, scenario_array.emplace false scenario_heap 1 1 9 = some (it, A1, h1) ∧
        h1.trace = scenario_heap.trace ++
          [Event.destroy (scenario_array.index 1 1), Event.construct (scenario_array.index 1 1)] ∧
        live_count h1.trace = live_count scenario_heap.trace) ∧
      (∃ it A1 h1, scenario_array.emplace true scenario_heap 1 1 9 = some (it, A1, h1) ∧
        h1.trace = scenario_heap.trace ++ [Event.construct (scenario_array.index 1 1)])) ∧
    ((∃ it S1 h1, scenario_square.emplace false scenario_square_heap 1 1 9 = some (it, S1, h1) ∧
        h1.trace = scenario_square_heap.trace ++
          [Event.destroy (scenario_square.index 1 1),
            Event.construct (scenario_square.index 1 1)] ∧
        live_count h1.trace = live_count scenario_square_heap.trace) ∧
      (∃ it S1 h1, scenario_square.emplace true scenario_square_heap 1 1 9 = some (it, S1, h1) ∧
        h1.trace = scenario_square_heap.trace ++
          [Event.construct (scenario_square.index 1 1)])) ∧
    (scenario_array.emplace false scenario_heap 1 1 9).map (fun r => r.2.2.trace) =
      some [Event.destroy ⟨1, 4⟩, Event.construct ⟨1, 4⟩] ∧
    (scenario_array.emplace true scenario_heap 1 1 9).map (fun r => r.2.2.trace) =
      some [Event.construct ⟨1, 4⟩] :=
  ⟨C10_emplace_lifetime.1 scenario_array scenario_heap 1 1 9
      (by decide) (by decide) (by decide) (by decide),
   C10_emplace_lifetime.2 2 2 scenario_square scenario_square_heap 1 1 9
      (by decide) (by decide) (by decide) (by decide),
   by decide, by decide⟩

/-- C11, the code at a failing input: on the 3 by 2 dynamic array,
`emplace(1, 1, 9)` returns the linear iterator `begin() + (1 * width + 1)` and
`emplace(row_begin(1), 9)` returns `row_begin(1)`; on the 2 by 2 fixed-size
array `emplace(column_begin(1), 9)` returns a column iterator at the position of
`column_begin(1)`. The dynamic array's `emplace(column_begin(1), 9)` returns
nothing, for this and for every other argument:
`emplacer<column_iterator>::emplace` ends in `return Iter(pos);` and
`array2d_column_iterator` has no constructor taking one pointer, so the stride
cannot be carried into the result. -/
theorem C11_dynamic_column_emplace_ill_formed :
    (scenario_array.emplace true scenario_heap 1 1 9).map (fun r => r.1) =
      some (scenario_array.begin.operator_plus ((1 * scenario_array.width + 1 : Nat) : Int)) ∧
    (scenario_array.emplace_iterator true scenario_heap (scenario_array.row_begin 1) 9).map
      (fun r => r.1) = some (scenario_array.row_begin 1) ∧
    (scenario_square.emplace_iterator true scenario_square_heap
      (scenario_square.row_begin 1) 9).map (fun r => r.1) = some (scenario_square.row_begin 1) ∧
    (scenario_square.emplace_column_iterator true scenario_square_heap
      (scenario_square.column_begin 1) 9).map (fun r => r.1) =
      some (scenario_square.column_begin 1) ∧
    scenario_array.emplace_column_iterator true scenario_heap
      (scenario_array.column_begin 1) 9 = none ∧
    (∀ (T : Type) (Trivial : Bool) (A : array2d) (h : Heap T) (pos : array2d_column_iterator)
        (v : T),
      A.emplace_column_iterator Trivial h pos v = none) := by
  refine ⟨by decide, by decide, by decide, by decide, by decide, ?_⟩
  intro T Trivial A h pos v
  rfl

/-- C12, counterexample: the fixed-size array `static_array2d<int, 2, 2>`
constructed by `static_array2d() { }`, an `int` taking 4 bytes and its
default-initialisation performing no initialisation, does not read 0 at every
in-range coordinate: no coordinate holds a determinate value. -/
theorem C12_default_int_not_zero :
    ¬ (∀ x, x < 2 → ∀ y, y < 2 →
        (static_array2d.ctor 2 2 4 (Heap.empty : Heap Int) default_init_int).2.load
          ((static_array2d.ctor 2 2 4 (Heap.empty : Heap Int) default_init_int).1.index x y) =
        some 0) ∧
    (∀ x, x < 2 → ∀ y, y < 2 →
        (static_array2d.ctor 2 2 4 (Heap.empty : Heap Int) default_init_int).2.load
          ((static_array2d.ctor 2 2 4 (Heap.empty : Heap Int) default_init_int).1.index x y) =
        none) := by
  constructor
  · decide
  · decide

/-- C12, amended: a freshly default-constructed fixed-size array reads, at
every in-range coordinate, what default-initialisation of its element type
leaves in a slot (`init`): the default-constructed value when the type has a
default constructor, no determinate value for `int`. The byte count
`Width * Height * sizeof(T)` is representable in `std::size_t`. -/
theorem C12_default_constructed_reads_default_init {T : Type} (W H sizeofT : Nat)
    (h : Heap T) (init : Option T) (x y : Nat) (hsz : 0 < sizeofT)
    (hfit : W * H * sizeofT < SIZE_MOD) (hx : x < W) (hy : y < H) :
    (static_array2d.ctor W H sizeofT h init).2.load
      ((static_array2d.ctor W H sizeofT h init).1.index x y) = init := by
  obtain ⟨hfit0, hle⟩ := static_array2d.size_ge hsz hfit
  have hlt := linear_offset_lt hx hy
  unfold Heap.load
  rw [static_array2d.static_index_exact _ hfit0 hx hy,
    static_array2d.ctor_cell W H sizeofT h init _ (by omega)]
  rfl

/-- C12 amended, on `static_array2d<int, 2, 2>`: with a default constructor
leaving 7 coordinate (1, 1) reads 7, and with the default-initialisation of
`int` it reads nothing. -/
theorem C12_default_constructed_reads_default_init_witness :
    (static_array2d.ctor 2 2 4 (Heap.empty : Heap Int) (some 7)).2.load
      ((static_array2d.ctor 2 2 4 (Heap.empty : Heap Int) (some 7)).1.index 1 1) = some 7 ∧
    (static_array2d.ctor 2 2 4 (Heap.empty : Heap Int) default_init_int).2.load
      ((static_array2d.ctor 2 2 4 (Heap.empty : Heap Int) default_init_int).1.index 1 1) =
      default_init_int :=
  ⟨C12_default_constructed_reads_default_init 2 2 4 Heap.empty (some 7) 1 1
      (by decide) (by decide) (by decide) (by decide),
   C12_default_constructed_reads_default_init 2 2 4 Heap.empty default_init_int 1 1
      (by decide) (by decide) (by decide) (by decide)⟩

/-- C13, the code at a failing input: for the fixed-size array
`static_array2d<int, 2, 2>` reading 1, 2, 3, 4, the span `begin()..end()` covers
the `2 * 2` elements, but copy assignment into a second such array and copy
construction produce nothing, for these arrays and for every other: both bodies
are `std::copy(o.begin(), o.end(), begin())`, the iterators are tagged random
access, so the algorithm takes the element count as `last - first`, and
`array2d_iterator` declares no difference of two iterators. Nothing is assigned
and the destination never reads what the source reads. -/
theorem C13_static_copy_ill_formed :
    scenario_square.end._m_pos = scenario_square.begin._m_pos.add 4 ∧
    [scenario_squares_heap.load (scenario_square.index 0 0),
      scenario_squares_heap.load (scenario_square.index 1 0),
      scenario_squares_heap.load (scenario_square.index 0 1),
      scenario_squares_heap.load (scenario_square.index 1 1)] =
      [some 1, some 2, some 3, some 4] ∧
    array2d_iterator.operator_minus_iterator scenario_square.end scenario_square.begin =
      none ∧
    static_array2d.copy_assign scenario_squares_heap scenario_square_copy scenario_square =
      none ∧
    static_array2d.copy_ctor 2 2 4 scenario_squares_heap none scenario_square = none ∧
    (∀ (T : Type) (W H : Nat) (h : Heap T) (B A : static_array2d W H),
      static_array2d.copy_assign h B A = none) ∧
    (∀ (T : Type) (W H sizeofT : Nat) (h : Heap T) (init : Option T)
        (A : static_array2d W H),
      static_array2d.copy_ctor W H sizeofT h init A = none) := by
  refine ⟨by decide, by decide, rfl, rfl, rfl, ?_, ?_⟩
  · intro T W H h B A
    rfl
  · intro T W H sizeofT h init A
    rfl

/-- C14: the static-stride column iterator of width `W` and the dynamic-stride
column iterator built with stride `W`, at the same position, agree on the
resulting position, the position of the returned iterator and the referenced
location for pre-increment, pre-decrement, post-decrement, `+= n`, `-= n`,
`+ n`, `- n`, `[n]` and the six comparisons, and both are advanced by `W` by
post-increment; but post-increment of the dynamic iterator hands back an
iterator at the position held before the call, while post-increment of the
static iterator, which returns a reference to its local `tmp`, hands back none. -/
theorem C14_static_post_increment_dangles {T : Type} (h : Heap T) (W : Nat) (p q : Ptr)
    (n : Int) :
    ((⟨p⟩ : static_array2d_column_iterator W).operator_inc._m_pos =
        (⟨p, W⟩ : array2d_column_iterator).operator_inc._m_pos ∧
      (⟨p⟩ : static_array2d_column_iterator W).operator_dec._m_pos =
        (⟨p, W⟩ : array2d_column_iterator).operator_dec._m_pos ∧
      (⟨p⟩ : static_array2d_column_iterator W).operator_post_dec.1._m_pos =
        (⟨p, W⟩ : array2d_column_iterator).operator_post_dec.1._m_pos ∧
      (⟨p⟩ : static_array2d_column_iterator W).operator_post_dec.2._m_pos =
        (⟨p, W⟩ : array2d_column_iterator).operator_post_dec.2._m_pos ∧
      ((⟨p⟩ : static_array2d_column_iterator W).operator_plus_assign n)._m_pos =
        ((⟨p, W⟩ : array2d_column_iterator).operator_plus_assign n)._m_pos ∧
      ((⟨p⟩ : static_array2d_column_iterator W).operator_minus_assign n)._m_pos =
        ((⟨p, W⟩ : array2d_column_iterator).operator_minus_assign n)._m_pos ∧
      ((⟨p⟩ : static_array2d_column_iterator W).operator_plus n)._m_pos =
        ((⟨p, W⟩ : array2d_column_iterator).operator_plus n)._m_pos ∧
      ((⟨p⟩ : static_array2d_column_iterator W).operator_minus n)._m_pos =
        ((⟨p, W⟩ : array2d_column_iterator).operator_minus n)._m_pos ∧
      (⟨p⟩ : static_array2d_column_iterator W).operator_subscript n =
        (⟨p, W⟩ : array2d_column_iterator).operator_subscript n ∧
      (⟨p⟩ : static_array2d_column_iterator W).operator_star h =
        (⟨p, W⟩ : array2d_column_iterator).operator_star h) ∧
    ((⟨p⟩ : static_array2d_column_iterator W).operator_eq ⟨q⟩ =
        (⟨p, W⟩ : array2d_column_iterator).operator_eq ⟨q, W⟩ ∧
      (⟨p⟩ : static_array2d_column_iterator W).operator_ne ⟨q⟩ =
        (⟨p, W⟩ : array2d_column_iterator).operator_ne ⟨q, W⟩ ∧
      (⟨p⟩ : static_array2d_column_iterator W).operator_lt ⟨q⟩ =
        (⟨p, W⟩ : array2d_column_iterator).operator_lt ⟨q, W⟩ ∧
      (⟨p⟩ : static_array2d_column_iterator W).operator_gt ⟨q⟩ =
        (⟨p, W⟩ : array2d_column_iterator).operator_gt ⟨q, W⟩ ∧
      (⟨p⟩ : static_array2d_column_iterator W).operator_le ⟨q⟩ =
        (⟨p, W⟩ : array2d_column_iterator).operator_le ⟨q, W⟩ ∧
      (⟨p⟩ : static_array2d_column_iterator W).operator_ge ⟨q⟩ =
        (⟨p, W⟩ : array2d_column_iterator).operator_ge ⟨q, W⟩ ∧
      (∀ op, (⟨p⟩ : static_array2d_column_iterator W).mixed_compare op ⟨q⟩ =
        (⟨p, W⟩ : array2d_column_iterator).mixed_compare op ⟨q, W⟩)) ∧
    ((⟨p⟩ : static_array2d_column_iterator W).operator_post_inc.2._m_pos =
        (⟨p, W⟩ : array2d_column_iterator).operator_post_inc.2._m_pos ∧
      (⟨p, W⟩ : array2d_column_iterator).operator_post_inc.2._m_pos = p.add W ∧
      (⟨p, W⟩ : array2d_column_iterator).operator_post_inc.1 = ⟨p, W⟩ ∧
      (⟨p⟩ : static_array2d_column_iterator W).operator_post_inc.1 = none) := by
  refine ⟨⟨rfl, rfl, rfl, rfl, rfl, rfl, rfl, rfl, rfl, rfl⟩,
    ⟨rfl, rfl, rfl, rfl, rfl, rfl, ?_⟩, ⟨rfl, rfl, rfl, rfl⟩⟩
  intro op
  cases op <;> rfl

/-- C15: for two iterators of one kind (linear, dynamic-stride column,
static-stride column), each of `==`, `!=`, `<`, `>`, `<=`, `>=`, as a member
(same constness) and as the free function for a mutable and a const iterator
in either order, returns the built-in comparison of the two positions; so two
dynamic-stride column iterators at one position compare equal whatever their
strides, and `a <= b` holds exactly when `a < b` or `a == b`. -/
theorem C15_comparisons_by_position :
    (∀ (a b : array2d_iterator),
      a.operator_eq b = Ptr.compare CompareOp.eq a._m_pos b._m_pos ∧
      a.operator_ne b = Ptr.compare CompareOp.ne a._m_pos b._m_pos ∧
      a.operator_lt b = Ptr.compare CompareOp.lt a._m_pos b._m_pos ∧
      a.operator_gt b = Ptr.compare CompareOp.gt a._m_pos b._m_pos ∧
      a.operator_le b = Ptr.compare CompareOp.le a._m_pos b._m_pos ∧
      a.operator_ge b = Ptr.compare CompareOp.ge a._m_pos b._m_pos ∧
      (∀ op, a.mixed_compare op b = Ptr.compare op a._m_pos b._m_pos) ∧
      (a.operator_le b = true ↔ (a.operator_lt b = true ∨ a.operator_eq b = true))) ∧
    (∀ (a b : array2d_column_iterator),
      a.operator_eq b = Ptr.compare CompareOp.eq a._m_pos b._m_pos ∧
      a.operator_ne b = Ptr.compare CompareOp.ne a._m_pos b._m_pos ∧
      a.operator_lt b = Ptr.compare CompareOp.lt a._m_pos b._m_pos ∧
      a.operator_gt b = Ptr.compare CompareOp.gt a._m_pos b._m_pos ∧
      a.operator_le b = Ptr.compare CompareOp.le a._m_pos b._m_pos ∧
      a.operator_ge b = Ptr.compare CompareOp.ge a._m_pos b._m_pos ∧
      (∀ op, a.mixed_compare op b = Ptr.compare op a._m_pos b._m_pos) ∧
      (a.operator_le b = true ↔ (a.operator_lt b = true ∨ a.operator_eq b = true))) ∧
    (∀ (W : Nat) (a b : static_array2d_column_iterator W),
      a.operator_eq b = Ptr.compare CompareOp.eq a._m_pos b._m_pos ∧
      a.operator_ne b = Ptr.compare CompareOp.ne a._m_pos b._m_pos ∧
      a.operator_lt b = Ptr.compare CompareOp.lt a._m_pos b._m_pos ∧
      a.operator_gt b = Ptr.compare CompareOp.gt a._m_pos b._m_pos ∧
      a.operator_le b = Ptr.compare CompareOp.le a._m_pos b._m_pos ∧
      a.operator_ge b = Ptr.compare CompareOp.ge a._m_pos b._m_pos ∧
      (∀ op, a.mixed_compare op b = Ptr.compare op a._m_pos b._m_pos) ∧
      (a.operator_le b = true ↔ (a.operator_lt b = true ∨ a.operator_eq b = true))) ∧
    (∀ (p : Ptr) (w1 w2 : Nat),
      (⟨p, w1⟩ : array2d_column_iterator).operator_eq ⟨p, w2⟩ = true ∧
      (⟨p, w1⟩ : array2d_column_iterator).operator_ne ⟨p, w2⟩ = false ∧
      (⟨p, w1⟩ : array2d_column_iterator).mixed_compare CompareOp.eq ⟨p, w2⟩ = true) := by
  refine ⟨?_, ?_, ?_, ?_⟩
  · intro a b
    refine ⟨rfl, rfl, rfl, rfl, Ptr.not_gt_eq_le _ _, Ptr.not_lt_eq_ge _ _, ?_, ?_⟩
    · intro op
      cases op
      · rfl
      · rfl
      · rfl
      · rfl
      · exact Ptr.not_gt_eq_le _ _
      · exact Ptr.not_lt_eq_ge _ _
    · show (!(Ptr.gt a._m_pos b._m_pos)) = true ↔ _
      rw [Ptr.not_gt_eq_le]
      exact Ptr.le_iff_lt_or_eq _ _
  · intro a b
    refine ⟨rfl, rfl, rfl, rfl, Ptr.not_gt_eq_le _ _, Ptr.not_lt_eq_ge _ _, ?_, ?_⟩
    · intro op
      cases op
      · rfl
      · rfl
      · rfl
      · rfl
      · exact Ptr.not_gt_eq_le _ _
      · exact Ptr.not_lt_eq_ge _ _
    · show (!(Ptr.gt a._m_pos b._m_pos)) = true ↔ _
      rw [Ptr.not_gt_eq_le]
      exact Ptr.le_iff_lt_or_eq _ _
  · intro W a b
    refine ⟨?_, ?_, rfl, rfl, Ptr.not_gt_eq_le _ _, Ptr.not_lt_eq_ge _ _, ?_, ?_⟩
    · cases a; cases b
      simp [static_array2d_column_iterator.operator_eq, Ptr.compare, Ptr.eq]
    · cases a; cases b
      simp [static_array2d_column_iterator.operator_ne, Ptr.compare, Ptr.ne]
    · intro op
      cases op
      · rfl
      · rfl
      · rfl
      · rfl
      · exact Ptr.not_gt_eq_le _ _
      · exact Ptr.not_lt_eq_ge _ _
    · show (!(Ptr.gt a._m_pos b._m_pos)) = true ↔ _
      rw [Ptr.not_gt_eq_le]
      have hl := Ptr.le_iff_lt_or_eq a._m_pos b._m_pos
      have he : a.operator_eq b = Ptr.eq a._m_pos b._m_pos := by
        cases a; cases b
        simp [static_array2d_column_iterator.operator_eq, Ptr.eq]
      rw [he]
      exact hl
  · intro p w1 w2
    simp [array2d_column_iterator.operator_eq, array2d_column_iterator.operator_ne,
      array2d_column_iterator.mixed_compare, ARRAY2D_ITER_COMPARE_OP, Ptr.eq]

/-- C16: for the linear iterator (stride 1) and the dynamic-stride column
iterator (stride `s = _m_width`) at position `p`, and every offset `n`:
`(it + n) - n` is `it`; `it += n` and `it -= n` leave `it` equal to `it + n`
and `it - n`; `it[n]` designates the element `*(it + n)`; post-increment hands
back an iterator at `p` and leaves `it` at `p + s`; pre-decrement followed by
pre-increment restores `it`. `it + n` keeps the stride and is at position
`p + n * s`, and pre-increment leaves `it` equal to `it + 1`: for the linear
iterator always, for the column iterator when the offset `n * s`, respectively
`s`, is representable in `std::ptrdiff_t`, as every offset between two positions
of one buffer is. -/
theorem C16_iterator_offsets :
    (∀ (it : array2d_iterator) (n : Int),
      (it.operator_plus n)._m_pos = it._m_pos.add (n * 1) ∧
      (it.operator_plus n).operator_minus n = it ∧
      it.operator_plus_assign n = it.operator_plus n ∧
      it.operator_minus_assign n = it.operator_minus n ∧
      it.operator_subscript n = (it.operator_plus n)._m_pos ∧
      (∀ (T : Type) (h : Heap T),
        h.load (it.operator_subscript n) = (it.operator_plus n).operator_star h) ∧
      it.operator_inc = it.operator_plus 1 ∧
      it.operator_post_inc.1._m_pos = it._m_pos ∧
      it.operator_post_inc.2._m_pos = it._m_pos.add 1 ∧
      it.operator_dec.operator_inc = it) ∧
    (∀ (it : array2d_column_iterator) (n : Int),
      (it.operator_plus n)._m_width = it._m_width ∧
      (it.operator_plus n).operator_minus n = it ∧
      it.operator_plus_assign n = it.operator_plus n ∧
      it.operator_minus_assign n = it.operator_minus n ∧
      it.operator_subscript n = (it.operator_plus n)._m_pos ∧
      (∀ (T : Type) (h : Heap T),
        h.load (it.operator_subscript n) = (it.operator_plus n).operator_star h) ∧
      it.operator_post_inc.1._m_pos = it._m_pos ∧
      it.operator_post_inc.2 = ⟨it._m_pos.add it._m_width, it._m_width⟩ ∧
      it.operator_dec.operator_inc = it ∧
      (-(2 ^ 63 : Int) ≤ n * (it._m_width : Int) → n * (it._m_width : Int) < 2 ^ 63 →
        (it.operator_plus n)._m_pos = it._m_pos.add (n * (it._m_width : Int))) ∧
      ((it._m_width : Int) < 2 ^ 63 → it.operator_inc = it.operator_plus 1)) := by
  constructor
  · intro it n
    refine ⟨by rw [mul_one]; rfl, ?_, rfl, rfl, rfl, fun _ _ => rfl, rfl, rfl, rfl, ?_⟩
    · simp only [array2d_iterator.operator_plus, array2d_iterator.operator_minus]
      rw [Ptr.add_sub_cancel]
    · simp only [array2d_iterator.operator_dec, array2d_iterator.operator_inc]
      rw [Ptr.sub_add_cancel]
  · intro it n
    refine ⟨rfl, ?_, rfl, rfl, rfl, fun _ _ => rfl, rfl, rfl, ?_, ?_, ?_⟩
    · simp only [array2d_column_iterator.operator_plus, array2d_column_iterator.operator_minus,
        Ptr.add_size, Ptr.sub_size]
      rw [Ptr.add_sub_cancel]
    · simp only [array2d_column_iterator.operator_dec, array2d_column_iterator.operator_inc]
      rw [Ptr.sub_add_cancel]
    · intro hlo hhi
      simp only [array2d_column_iterator.operator_plus, Ptr.add_size]
      rw [to_ptrdiff_step n it._m_width hlo hhi]
    · intro hw
      simp only [array2d_column_iterator.operator_plus, array2d_column_iterator.operator_inc,
        Ptr.add_size]
      rw [to_ptrdiff_step 1 it._m_width (by omega) (by omega), one_mul]

/-- C16 on the column iterator at slot 4 of the 3 by 2 array, stride 3, and
the linear iterator at slot 4, offset -1: the column iterator lands on slot 1
(value 2) and the linear iterator on slot 3 (value 4). -/
theorem C16_iterator_offsets_witness :
    ((⟨⟨1, 4⟩, 3⟩ : array2d_column_iterator).operator_plus (-1))._m_pos =
      (⟨1, 4⟩ : Ptr).add (-1 * ((3 : Nat) : Int)) ∧
    (⟨⟨1, 4⟩, 3⟩ : array2d_column_iterator).operator_inc =
      (⟨⟨1, 4⟩, 3⟩ : array2d_column_iterator).operator_plus 1 ∧
    ((⟨⟨1, 4⟩⟩ : array2d_iterator).operator_plus (-1)).operator_minus (-1) = ⟨⟨1, 4⟩⟩ ∧
    ((⟨⟨1, 4⟩, 3⟩ : array2d_column_iterator).operator_plus (-1)).operator_star scenario_heap =
      some 2 ∧
    scenario_heap.load ((⟨⟨1, 4⟩, 3⟩ : array2d_column_iterator).operator_subscript (-1)) =
      some 2 ∧
    ((⟨⟨1, 4⟩⟩ : array2d_iterator).operator_plus (-1)).operator_star scenario_heap = some 4 :=
  ⟨(C16_iterator_offsets.2 ⟨⟨1, 4⟩, 3⟩ (-1)).2.2.2.2.2.2.2.2.2.1 (by decide) (by decide),
   (C16_iterator_offsets.2 ⟨⟨1, 4⟩, 3⟩ (-1)).2.2.2.2.2.2.2.2.2.2 (by decide),
   (C16_iterator_offsets.1 ⟨⟨1, 4⟩⟩ (-1)).2.1,
   by decide, by decide, by decide⟩

/-- C17, the code at a failing input: `B` is the 1 by 1 array owning buffer 2
and `A` the 3 by 2 array owning buffer 1. After the copy assignment `B = A`
buffer 2 is still live, nothing has been handed to `delete[]`, and neither `B`
(now owning the fresh buffer 3) nor `A` points to it. After the move assignment
`B = move(A)` buffer 2 is still live, `B` owns buffer 1 and `A` is null; the
destructors of both arrays then release buffer 1 only and buffer 2 stays live
with no owner. Neither assignment contains a `delete[]`. -/
theorem C17_assignment_leaks_old_buffer :
    scenario_small.m_data.blk = 2 ∧
    (scenario_heap_pair.block 2).isSome = true ∧
    (array2d.copy_assign 4 scenario_heap_pair scenario_small scenario_array).map
        (fun r => ((r.2.block 2).isSome, r.2.frees, r.1.m_data.blk)) =
      some (true, [], 3) ∧
    scenario_array.m_data.blk = 1 ∧
    (array2d.move_assign scenario_small scenario_array).1.m_data.blk = 1 ∧
    (array2d.move_assign scenario_small scenario_array).2.m_data = nullptr ∧
    ((array2d.dtor true (array2d.move_assign scenario_small scenario_array).2
        scenario_heap_pair).bind
      (array2d.dtor true (array2d.move_assign scenario_small scenario_array).1)).map
        (fun g => g.frees) = some [1] ∧
    ((array2d.dtor true (array2d.move_assign scenario_small scenario_array).2
        scenario_heap_pair).bind
      (array2d.dtor true (array2d.move_assign scenario_small scenario_array).1)).map
        (fun g => (g.block 2).isSome) = some true := by
  refine ⟨by decide, by decide, by decide, by decide, by decide, by decide, by decide,
    by decide⟩

/-- C18: in exact arithmetic, for `x < w` and `y < h` the linear offset
`y * w + x` is below `w * h`, and equal offsets of in-range coordinates come from
equal coordinates. Hence, for a dynamic or fixed-size array whose buffer starts
at `m_data` and holds at least `width * height` slots (a count representable in
`std::size_t`), the total lookup `Heap.cell` finds a slot at every position
that `index`, `operator()`, a row traversal and a column traversal designate,
and coordinate `emplace` returns. -/
theorem C18_in_range_positions_in_buffer {T : Type} :
    (∀ w h x y : Nat, x < w → y < h → y * w + x < w * h) ∧
    (∀ w x y x' y' : Nat, x < w → x' < w → y * w + x = y' * w + x' → x = x' ∧ y = y') ∧
    (∀ (hp : Heap T) (A : array2d), A.m_width * A.m_height < SIZE_MOD →
      A.m_data.off = 0 →
      (∃ cells, hp.block A.m_data.blk = some cells ∧ A.m_width * A.m_height ≤ cells.length) →
      (∀ x y, x < A.m_width → y < A.m_height →
        (hp.cell (A.index x y)).isSome = true ∧
        (hp.cell (A.operator_call x y)).isSome = true ∧
        (∀ (Trivial : Bool) (v : T), (Trivial = false → (hp.load (A.index x y)).isSome) →
          (A.emplace Trivial hp x y v).isSome = true)) ∧
      (∀ y fuel, y < A.m_height → A.m_width < fuel →
        ∃ ps, (A.row_begin y).traverse fuel (A.row_end y) = some ps ∧
          ∀ p, p ∈ ps → (hp.cell p).isSome = true) ∧
      (∀ x fuel, x < A.m_width → A.m_height < fuel →
        ∃ ps, (A.column_begin x).traverse fuel (A.column_end x) = some ps ∧
          ∀ p, p ∈ ps → (hp.cell p).isSome = true)) ∧
    (∀ (W H : Nat) (hp : Heap T) (S : static_array2d W H), W * H < SIZE_MOD →
      S.m_data.off = 0 →
      (∃ cells, hp.block S.m_data.blk = some cells ∧ W * H ≤ cells.length) →
      (∀ x y, x < W → y < H →
        (hp.cell (S.index x y)).isSome = true ∧
        (hp.cell (S.operator_call x y)).isSome = true ∧
        (∀ (Trivial : Bool) (v : T), (Trivial = false → (hp.load (S.index x y)).isSome) →
          (S.emplace Trivial hp x y v).isSome = true)) ∧
      (∀ y fuel, y < H → W < fuel →
        ∃ ps, (S.row_begin y).traverse fuel (S.row_end y) = some ps ∧
          ∀ p, p ∈ ps → (hp.cell p).isSome = true) ∧
      (∀ x fuel, x < W → H < fuel →
        ∃ ps, (S.column_begin x).traverse fuel (S.column_end x) = some ps ∧
          ∀ p, p ∈ ps → (hp.cell p).isSome = true)) := by
  refine ⟨fun w h x y hx hy => linear_offset_lt hx hy,
    fun w x y x' y' hx hx' he => linear_offset_inj hx hx' he, ?_, ?_⟩
  · intro hp A hfit hoff hbuf
    have hslot : ∀ x y, x < A.m_width → y < A.m_height →
        (hp.cell (A.index x y)).isSome = true := by
      intro x y hx hy
      rw [array2d.dynamic_index_exact A hfit hx hy]
      exact Heap.cell_in_buffer hp A.m_data _ _ hoff hbuf (linear_offset_lt hx hy)
    refine ⟨?_, ?_, ?_⟩
    · intro x y hx hy
      refine ⟨hslot x y hx hy, hslot x y hx hy, ?_⟩
      intro Trivial v hlive
      obtain ⟨h1, hrun, _⟩ := emplacer.emplace_spec Trivial array2d_iterator.mk hp
        (A.index x y) v (hslot x y hx hy) hlive
      simp only [array2d.emplace]
      rw [array2d.dynamic_emplace_pos A hfit hx hy, hrun]
      rfl
    · intro y fuel hy hf
      refine ⟨(List.range A.m_width).map
        (fun k => (A.m_data.add (size_mul y A.m_width)).add (k : Nat)), ?_, ?_⟩
      · simp only [array2d.row_begin, array2d.row_end]
        exact array2d_iterator.linear_traverse_run _ _ _ hf
      · intro p hpm
        obtain ⟨k, hk, rfl⟩ := List.mem_map.1 hpm
        have hk' : k < A.m_width := List.mem_range.1 hk
        rw [row_offset_exact hfit hy, Ptr.add_add]
        have := Heap.cell_in_buffer hp A.m_data _ _ hoff hbuf (linear_offset_lt hk' hy)
        simpa using this
    · intro x fuel hx hf
      have hw : 0 < A.m_width := by omega
      have hhw : size_mul A.m_height A.m_width = A.m_height * A.m_width :=
        size_mul_exact (by rw [Nat.mul_comm]; exact hfit)
      have hend : A.column_end x =
          ⟨(A.m_data.add x).add ((A.m_height * A.m_width : Nat) : Int), A.m_width⟩ := by
        simp only [array2d.column_end]
        rw [hhw, Ptr.add_add, Ptr.add_add, add_comm]
      refine ⟨(List.range A.m_height).map
        (fun k => (A.m_data.add x).add ((k * A.m_width : Nat) : Int)), ?_, ?_⟩
      · rw [hend]
        simp only [array2d.column_begin]
        exact array2d_column_iterator.column_traverse_run _ _ hw _ _ _ hf
      · intro p hpm
        obtain ⟨k, hk, rfl⟩ := List.mem_map.1 hpm
        have hk' : k < A.m_height := List.mem_range.1 hk
        rw [Ptr.add_add]
        have := Heap.cell_in_buffer hp A.m_data _ _ hoff hbuf (linear_offset_lt hx hk')
        have he : ((x : Nat) : Int) + ((k * A.m_width : Nat) : Int) =
            ((k * A.m_width + x : Nat) : Int) := by push_cast; ring
        rw [he]
        exact this
  · intro W H hp S hfit hoff hbuf
    have hslot : ∀ x y, x < W → y < H → (hp.cell (S.index x y)).isSome = true := by
      intro x y hx hy
      rw [static_array2d.static_index_exact S hfit hx hy]
      exact Heap.cell_in_buffer hp S.m_data _ _ hoff hbuf (linear_offset_lt hx hy)
    refine ⟨?_, ?_, ?_⟩
    · intro x y hx hy
      refine ⟨hslot x y hx hy, hslot x y hx hy, ?_⟩
      intro Trivial v hlive
      obtain ⟨h1, hrun, _⟩ := emplacer.emplace_spec Trivial array2d_iterator.mk hp
        (S.index x y) v (hslot x y hx hy) hlive
      simp only [static_array2d.emplace]
      rw [static_array2d.static_emplace_pos S hfit hx hy, hrun]
      rfl
    · intro y fuel hy hf
      refine ⟨(List.range W).map
        (fun k => (S.m_data.add (size_mul y W)).add (k : Nat)), ?_, ?_⟩
      · simp only [static_array2d.row_begin, static_array2d.row_end]
        exact array2d_iterator.linear_traverse_run _ _ _ hf
      · intro p hpm
        obtain ⟨k, hk, rfl⟩ := List.mem_map.1 hpm
        have hk' : k < W := List.mem_range.1 hk
        rw [row_offset_exact hfit hy, Ptr.add_add]
        have := Heap.cell_in_buffer hp S.m_data _ _ hoff hbuf (linear_offset_lt hk' hy)
        simpa using this
    · intro x fuel hx hf
      have hw : 0 < W := by omega
      have hhw : size_mul H W = H * W := size_mul_exact (by rw [Nat.mul_comm]; exact hfit)
      have hend : S.column_end x = ⟨(S.m_data.add x).add ((H * W : Nat) : Int)⟩ := by
        simp only [static_array2d.column_end]
        rw [hhw, Ptr.add_add, Ptr.add_add, add_comm]
      refine ⟨(List.range H).map
        (fun k => (S.m_data.add x).add ((k * W : Nat) : Int)), ?_, ?_⟩
      · rw [hend]
        simp only [static_array2d.column_begin]
        exact static_array2d_column_iterator.static_column_traverse_run _ hw _ _ _ hf
      · intro p hpm
        obtain ⟨k, hk, rfl⟩ := List.mem_map.1 hpm
        have hk' : k < H := List.mem_range.1 hk
        rw [Ptr.add_add]
        have := Heap.cell_in_buffer hp S.m_data _ _ hoff hbuf (linear_offset_lt hx hk')
        have he : ((x : Nat) : Int) + ((k * W : Nat) : Int) =
            ((k * W + x : Nat) : Int) := by push_cast; ring
        rw [he]
        exact this

/-- C18 on the 3 by 2 dynamic array and the 2 by 2 fixed-size array: every
accessor position has a slot; offset `1 * 3 + 2 = 5` is below 6. -/
theorem C18_in_range_positions_in_buffer_witness :
    (1 * 3 + 2 < 3 * 2) ∧
    ((∀ x y, x < scenario_array.m_width → y < scenario_array.m_height →
        (scenario_heap.cell (scenario_array.index x y)).isSome = true ∧
        (scenario_heap.cell (scenario_array.operator_call x y)).isSome = true ∧
        (∀ (Trivial : Bool) (v : Int),
          (Trivial = false → (scenario_heap.load (scenario_array.index x y)).isSome) →
          (scenario_array.emplace Trivial scenario_heap x y v).isSome = true)) ∧
      (∀ y fuel, y < scenario_array.m_height → scenario_array.m_width < fuel →
        ∃ ps, (scenario_array.row_begin y).traverse fuel (scenario_array.row_end y) = some ps ∧
          ∀ p, p ∈ ps → (scenario_heap.cell p).isSome = true) ∧
      (∀ x fuel, x < scenario_array.m_width → scenario_array.m_height < fuel →
        ∃ ps, (scenario_array.column_begin x).traverse fuel (scenario_array.column_end x) =
            some ps ∧
          ∀ p, p ∈ ps → (scenario_heap.cell p).isSome = true)) ∧
    ((∀ x y, x < 2 → y < 2 →
        (scenario_square_heap.cell (scenario_square.index x y)).isSome = true ∧
        (scenario_square_heap.cell (scenario_square.operator_call x y)).isSome = true ∧
        (∀ (Trivial : Bool) (v : Int),
          (Trivial = false → (scenario_square_heap.load (scenario_square.index x y)).isSome) →
          (scenario_square.emplace Trivial scenario_square_heap x y v).isSome = true)) ∧
      (∀ y fuel, y < 2 → 2 < fuel →
        ∃ ps, (scenario_square.row_begin y).traverse fuel (scenario_square.row_end y) =
            some ps ∧
          ∀ p, p ∈ ps → (scenario_square_heap.cell p).isSome = true) ∧
      (∀ x fuel, x < 2 → 2 < fuel →
        ∃ ps, (scenario_square.column_begin x).traverse fuel (scenario_square.column_end x) =
            some ps ∧
          ∀ p, p ∈ ps → (scenario_square_heap.cell p).isSome = true)) :=
  ⟨(@C18_in_range_positions_in_buffer Int).1 3 2 2 1 (by decide) (by decide),
   C18_in_range_positions_in_buffer.2.2.1 scenario_heap scenario_array (by decide) (by decide)
     ⟨_, rfl, by decide⟩,
   C18_in_range_positions_in_buffer.2.2.2 2 2 scenario_square_heap scenario_square
     (by decide) (by decide) ⟨_, rfl, by decide⟩⟩

/-- C19: for the dynamic-stride column iterator with stride `w` and every
offset `n`, negative ones included: the step `n * w` the code computes, in
`std::size_t` after converting `n`, is congruent modulo `2 ^ 64` to the exact
product; so `it + n` has the 64-bit address of position `p + n * w`, and is that
position when `n * w` is representable in `std::ptrdiff_t`; `it - n` has the
address of `it + (-n)`, and is that position when `n * w` lies strictly between
`-2 ^ 63` and `2 ^ 63`; and for an array of fewer than `2 ^ 63` elements
`column_begin(x)[y]` with `y < height` designates `index(x, y)`. -/
theorem C19_column_step_wraps (it : array2d_column_iterator) (n : Int) :
    ((size_mul (to_size n) it._m_width : Nat) : Int) % (SIZE_MOD : Int) =
      (n * (it._m_width : Int)) % (SIZE_MOD : Int) ∧
    (∀ (base : Nat → Int) (sizeofT : Nat),
      Ptr.address base sizeofT (it.operator_plus n)._m_pos =
        Ptr.address base sizeofT (it._m_pos.add (n * (it._m_width : Int)))) ∧
    (-(2 ^ 63 : Int) ≤ n * (it._m_width : Int) → n * (it._m_width : Int) < 2 ^ 63 →
      (it.operator_plus n)._m_pos = it._m_pos.add (n * (it._m_width : Int))) ∧
    (∀ (base : Nat → Int) (sizeofT : Nat),
      Ptr.address base sizeofT (it.operator_minus n)._m_pos =
        Ptr.address base sizeofT (it.operator_plus (-n))._m_pos) ∧
    (-(2 ^ 63 : Int) < n * (it._m_width : Int) → n * (it._m_width : Int) < 2 ^ 63 →
      (it.operator_minus n)._m_pos = (it.operator_plus (-n))._m_pos) ∧
    (∀ (A : array2d) (x y : Nat), A.m_width * A.m_height < 2 ^ 63 →
      x < A.m_width → y < A.m_height →
      (A.column_begin x).operator_subscript (y : Nat) = A.index x y) := by
  have hstep := column_step_cast n it._m_width
  have hneg := column_step_cast (-n) it._m_width
  refine ⟨?_, ?_, ?_, ?_, ?_, ?_⟩
  · rw [hstep, Int.emod_emod]
  · intro base sizeofT
    apply Ptr.address_congr
    · rfl
    · show (it._m_pos.off + to_ptrdiff (size_mul (to_size n) it._m_width)) % (SIZE_MOD : Int) =
        (it._m_pos.off + n * (it._m_width : Int)) % (SIZE_MOD : Int)
      have h1 := to_ptrdiff_emod (size_mul (to_size n) it._m_width)
      rw [hstep, Int.emod_emod] at h1
      rw [Int.add_emod, h1, ← Int.add_emod]
  · intro hlo hhi
    simp only [array2d_column_iterator.operator_plus, Ptr.add_size]
    rw [to_ptrdiff_step n it._m_width hlo hhi]
  · intro base sizeofT
    apply Ptr.address_congr
    · rfl
    · show (it._m_pos.off - to_ptrdiff (size_mul (to_size n) it._m_width)) % (SIZE_MOD : Int) =
        (it._m_pos.off + to_ptrdiff (size_mul (to_size (-n)) it._m_width)) % (SIZE_MOD : Int)
      have h1 := to_ptrdiff_emod (size_mul (to_size n) it._m_width)
      have h2 := to_ptrdiff_emod (size_mul (to_size (-n)) it._m_width)
      rw [hstep, Int.emod_emod] at h1
      rw [hneg, Int.emod_emod] at h2
      rw [Int.sub_emod, h1, ← Int.sub_emod, Int.add_emod, h2, ← Int.add_emod]
      congr 1
      ring
  · intro hlo hhi
    simp only [array2d_column_iterator.operator_plus, array2d_column_iterator.operator_minus,
      Ptr.add_size, Ptr.sub_size]
    rw [to_ptrdiff_step n it._m_width (le_of_lt hlo) hhi,
      to_ptrdiff_step (-n) it._m_width (by rw [neg_mul]; omega) (by rw [neg_mul]; omega)]
    simp [Ptr.add, Ptr.sub, sub_eq_add_neg]
  · intro A x y hfit hx hy
    have hM : (2 : Nat) ^ 63 < SIZE_MOD := by rw [SIZE_MOD_eq]; norm_num
    have hfit0 : A.m_width * A.m_height < SIZE_MOD := lt_trans hfit hM
    have hlt := linear_offset_lt hx hy
    have hyw : y * A.m_width < 2 ^ 63 := by omega
    simp only [array2d.column_begin, array2d_column_iterator.operator_subscript, Ptr.add_size]
    rw [to_ptrdiff_step (y : Nat) A.m_width
      (by
        have h0 : (0 : Int) ≤ ((y : Nat) : Int) * (A.m_width : Int) :=
          mul_nonneg (Int.natCast_nonneg _) (Int.natCast_nonneg _)
        omega)
      (by exact_mod_cast hyw),
      array2d.dynamic_index_exact A hfit0 hx hy, Ptr.add_add]
    congr 1
    push_cast
    ring

/-- C19 on the column iterator at slot 4 with stride 3 and offset -1: the step
is `2 ^ 64 - 3`, congruent to -3, and both `it + (-1)` and `it - 1` are at slot
1; `column_begin(1)[1]` of the 3 by 2 array is `index(1, 1)`. -/
theorem C19_column_step_wraps_witness :
    size_mul (to_size (-1)) 3 = 18446744073709551613 ∧
    ((⟨⟨1, 4⟩, 3⟩ : array2d_column_iterator).operator_plus (-1))._m_pos =
      (⟨1, 4⟩ : Ptr).add (-1 * ((3 : Nat) : Int)) ∧
    ((⟨⟨1, 4⟩, 3⟩ : array2d_column_iterator).operator_minus 1)._m_pos =
      ((⟨⟨1, 4⟩, 3⟩ : array2d_column_iterator).operator_plus (-1))._m_pos ∧
    (scenario_array.column_begin 1).operator_subscript ((1 : Nat) : Int) =
      scenario_array.index 1 1 ∧
    ((⟨⟨1, 4⟩, 3⟩ : array2d_column_iterator).operator_plus (-1))._m_pos = ⟨1, 1⟩ :=
  ⟨by decide,
   (C19_column_step_wraps ⟨⟨1, 4⟩, 3⟩ (-1)).2.2.1 (by decide) (by decide),
   (C19_column_step_wraps ⟨⟨1, 4⟩, 3⟩ 1).2.2.2.2.1 (by decide) (by decide),
   (C19_column_step_wraps ⟨⟨1, 4⟩, 3⟩ 1).2.2.2.2.2 scenario_array 1 1
     (by decide) (by decide) (by decide),
   by decide⟩

/-- C20: for the dynamic array and for the fixed-size array with
`height >= 1`: `row_begin(0)` is `begin()`; `row_end(y)` is `row_begin(y + 1)`
whenever `y + 1 < height`; `row_end(height - 1)` is `end()`; and `column_end(x)`
is at linear offset `width * height + x`, i.e. `x` elements after `end()`, so it
is at the position of `end()` exactly when `x = 0`. The element count
`width * height` is representable in `std::size_t`. -/
theorem C20_row_and_column_ends :
    (∀ (A : array2d), A.m_width * A.m_height < SIZE_MOD → 1 ≤ A.m_height →
      A.row_begin 0 = A.begin ∧
      (∀ y, y + 1 < A.m_height → A.row_end y = A.row_begin (y + 1)) ∧
      A.row_end (A.m_height - 1) = A.end ∧
      (∀ x, (A.column_end x)._m_pos =
          A.m_data.add ((A.m_width * A.m_height + x : Nat) : Int) ∧
        (A.column_end x)._m_pos = (A.end.operator_plus (x : Nat))._m_pos ∧
        ((A.column_end x)._m_pos = A.end._m_pos ↔ x = 0))) ∧
    (∀ (W H : Nat) (S : static_array2d W H), W * H < SIZE_MOD → 1 ≤ H →
      S.row_begin 0 = S.begin ∧
      (∀ y, y + 1 < H → S.row_end y = S.row_begin (y + 1)) ∧
      S.row_end (H - 1) = S.end ∧
      (∀ x, (S.column_end x)._m_pos = S.m_data.add ((W * H + x : Nat) : Int) ∧
        (S.column_end x)._m_pos = (S.end.operator_plus (x : Nat))._m_pos ∧
        ((S.column_end x)._m_pos = S.end._m_pos ↔ x = 0))) := by
  constructor
  · intro A hfit hh
    have hhw : size_mul A.m_height A.m_width = A.m_height * A.m_width :=
      size_mul_exact (by rw [Nat.mul_comm]; exact hfit)
    refine ⟨?_, ?_, ?_, ?_⟩
    · simp only [array2d.row_begin, array2d.begin, size_mul_zero_left]
      rw [Nat.cast_zero, Ptr.add_zero]
    · intro y hy
      simp only [array2d.row_begin, array2d.row_end]
      rw [row_offset_exact hfit (show y < A.m_height by omega), row_offset_exact hfit hy,
        Ptr.add_add]
      congr 2
      push_cast
      ring
    · simp only [array2d.row_end, array2d.end]
      rw [row_offset_exact hfit (show A.m_height - 1 < A.m_height by omega),
        size_mul_exact hfit, Ptr.add_add]
      congr 2
      have : (A.m_height - 1) * A.m_width + A.m_width = A.m_width * A.m_height := by
        have h1 : A.m_height - 1 + 1 = A.m_height := by omega
        calc (A.m_height - 1) * A.m_width + A.m_width
            = (A.m_height - 1 + 1) * A.m_width := by ring
          _ = A.m_width * A.m_height := by rw [h1, Nat.mul_comm]
      exact_mod_cast this
    · intro x
      have hpos : (A.column_end x)._m_pos =
          A.m_data.add ((A.m_width * A.m_height + x : Nat) : Int) := by
        simp only [array2d.column_end]
        rw [hhw, Ptr.add_add, Nat.mul_comm]
        congr 1
      have hend : A.end._m_pos = A.m_data.add ((A.m_width * A.m_height : Nat) : Int) := by
        simp only [array2d.end]
        rw [size_mul_exact hfit]
      refine ⟨hpos, ?_, ?_⟩
      · rw [hpos]
        simp only [array2d_iterator.operator_plus]
        rw [hend, Ptr.add_add]
        congr 1
      · rw [hpos, hend, Ptr.add_inj]
        constructor
        · intro he
          have : A.m_width * A.m_height + x = A.m_width * A.m_height := by exact_mod_cast he
          omega
        · intro hx
          rw [hx]
          rfl
  · intro W H S hfit hh
    have hhw : size_mul H W = H * W := size_mul_exact (by rw [Nat.mul_comm]; exact hfit)
    refine ⟨?_, ?_, ?_, ?_⟩
    · simp only [static_array2d.row_begin, static_array2d.begin, size_mul_zero_left]
      rw [Nat.cast_zero, Ptr.add_zero]
    · intro y hy
      simp only [static_array2d.row_begin, static_array2d.row_end]
      rw [row_offset_exact hfit (show y < H by omega), row_offset_exact hfit hy, Ptr.add_add]
      congr 2
      push_cast
      ring
    · simp only [static_array2d.row_end, static_array2d.end]
      rw [row_offset_exact hfit (show H - 1 < H by omega), size_mul_exact hfit, Ptr.add_add]
      congr 2
      have : (H - 1) * W + W = W * H := by
        have h1 : H - 1 + 1 = H := by omega
        calc (H - 1) * W + W = (H - 1 + 1) * W := by ring
          _ = W * H := by rw [h1, Nat.mul_comm]
      exact_mod_cast this
    · intro x
      have hpos : (S.column_end x)._m_pos = S.m_data.add ((W * H + x : Nat) : Int) := by
        simp only [static_array2d.column_end]
        rw [hhw, Ptr.add_add, Nat.mul_comm]
        congr 1
      have hend : S.end._m_pos = S.m_data.add ((W * H : Nat) : Int) := by
        simp only [static_array2d.end]
        rw [size_mul_exact hfit]
      refine ⟨hpos, ?_, ?_⟩
      · rw [hpos]
        simp only [array2d_iterator.operator_plus]
        rw [hend, Ptr.add_add]
        congr 1
      · rw [hpos, hend, Ptr.add_inj]
        constructor
        · intro he
          have : W * H + x = W * H := by exact_mod_cast he
          omega
        · intro hx
          rw [hx]
          rfl

/-- C20 on the 3 by 2 arrays: row 0 ends where row 1 begins, row 1 ends at
`end()`, and `column_end(1)` is one element after `end()`, at offset 7. -/
theorem C20_row_and_column_ends_witness :
    (scenario_array.row_begin 0 = scenario_array.begin ∧
      (∀ y, y + 1 < scenario_array.m_height →
        scenario_array.row_end y = scenario_array.row_begin (y + 1)) ∧
      scenario_array.row_end (scenario_array.m_height - 1) = scenario_array.end ∧
      (∀ x, (scenario_array.column_end x)._m_pos =
          scenario_array.m_data.add
            ((scenario_array.m_width * scenario_array.m_height + x : Nat) : Int) ∧
        (scenario_array.column_end x)._m_pos =
          (scenario_array.end.operator_plus (x : Nat))._m_pos ∧
        ((scenario_array.column_end x)._m_pos = scenario_array.end._m_pos ↔ x = 0))) ∧
    (scenario_static.row_begin 0 = scenario_static.begin ∧
      (∀ y, y + 1 < 2 → scenario_static.row_end y = scenario_static.row_begin (y + 1)) ∧
      scenario_static.row_end (2 - 1) = scenario_static.end ∧
      (∀ x, (scenario_static.column_end x)._m_pos =
          scenario_static.m_data.add ((3 * 2 + x : Nat) : Int) ∧
        (scenario_static.column_end x)._m_pos =
          (scenario_static.end.operator_plus (x : Nat))._m_pos ∧
        ((scenario_static.column_end x)._m_pos = scenario_static.end._m_pos ↔ x = 0))) ∧
    (scenario_array.column_end 1)._m_pos = ⟨1, 7⟩ ∧ scenario_array.end._m_pos = ⟨1, 6⟩ :=
  ⟨C20_row_and_column_ends.1 scenario_array (by decide) (by decide),
   C20_row_and_column_ends.2 3 2 scenario_static (by decide) (by decide),
   by decide, by decide⟩

end array2d
